import Mathlib

/-!
# dogapi-go: request paths, envelope decoding and error results

A shallow embedding of `src/dogapi/dogapi.go`.  The ten exported operations
are embedded one by one.  What the program only calls and does not define
(the HTTP transport, the syntax scanner of `encoding/json`, the case folding
of JSON keys) is collected in `Env` and quantified over; what the program
relies on from `encoding/json`, `reflect`, `fmt` and `strings` after that
point is written out: struct and map decoding, `reflect.Value.Len` and
`Index`, the verbs `%s`, `%v` and `%d`, and `strings.TrimSpace`.

Go strings are modelled by Lean strings (sequences of Unicode scalar
values, that is, well-formed UTF-8).  A nil slice and an empty slice, and a
nil map and an empty map, are both modelled by the empty list.
-/

namespace Dogapi

/-! ## Values -/

/-- A scanned JSON text.  The same tree stands for the value
`encoding/json` stores into an `interface{}`: `null` is the nil interface,
`bool` a `bool`, `num` a `float64`, `str` a `string`, `arr` a
`[]interface{}` and `obj` a `map[string]interface{}` (read with the last
occurrence of a repeated key winning, see `mapIndex`).  A number is carried
as the text `%v` prints for its `float64`, the only observation the program
makes of it. -/
inductive JSON where
  | null : JSON
  | bool (b : Bool) : JSON
  | num (shown : String) : JSON
  | str (s : String) : JSON
  | arr (items : List JSON) : JSON
  | obj (members : List (String × JSON)) : JSON

/-- What the program calls and does not define. -/
structure Env where
  /-- `http.Get` followed by `ioutil.ReadAll`: the body served for a URL, or the error text. -/
  httpGet : String → Except String String
  /-- The syntax scan of `json.Unmarshal`: the tree of a well-formed text, or the text of the syntax error. -/
  scan : String → Except String JSON
  /-- The case folding under which `encoding/json` matches an object key to a struct field. -/
  foldName : String → String

/-- The outcome of calling an operation: it returns its pair `(payload, err)`
(`err = none` is the nil error, `some t` an error whose `Error()` is `t`), or
the goroutine panics. -/
inductive Result (α : Type) where
  | returned (payload : α) (err : Option String) : Result α
  | panicked (reason : String) : Result α
  deriving DecidableEq

/-! ## `strings.TrimSpace` -/

/-- `unicode.IsSpace`: the Latin-1 cases of the switch and the `White_Space` table above Latin-1. -/
def isSpace (c : Char) : Bool :=
  c.toNat == 0x09 || c.toNat == 0x0A || c.toNat == 0x0B || c.toNat == 0x0C ||
  c.toNat == 0x0D || c.toNat == 0x20 || c.toNat == 0x85 || c.toNat == 0xA0 ||
  c.toNat == 0x1680 || (0x2000 ≤ c.toNat && c.toNat ≤ 0x200A) ||
  c.toNat == 0x2028 || c.toNat == 0x2029 || c.toNat == 0x202F ||
  c.toNat == 0x205F || c.toNat == 0x3000

/-- Drop the white space at the end of a character list. -/
def trimRight (l : List Char) : List Char :=
  l.rdropWhile isSpace

/-- `strings.TrimSpace` on the characters of a string. -/
def trimChars (l : List Char) : List Char :=
  trimRight (l.dropWhile isSpace)

/-- `strings.TrimSpace`. -/
def TrimSpace (s : String) : String :=
  ⟨trimChars s.data⟩

/-! ## The verb `%d` -/

/-- The ASCII digit of a value below ten. -/
def digitChar (d : Nat) : Char :=
  Char.ofNat (48 + d)

/-- The base-10 digits of `u`, least significant first: the loop of
`strconv`'s integer formatting, which emits `u % 10` and continues with
`u / 10` until one digit is left.  The first argument bounds the number of
iterations; `u + 1` is always enough. -/
def decimalRev : Nat → Nat → List Nat
  | 0, _ => []
  | fuel + 1, u => if u < 10 then [u] else (u % 10) :: decimalRev fuel (u / 10)

/-- The base-10 text of an unsigned value. -/
def formatUint (u : Nat) : List Char :=
  ((decimalRev (u + 1) u).reverse).map digitChar

/-- The text `%d` prints for a signed integer. -/
def formatInt (i : Int) : String :=
  if i < 0 then ⟨'-' :: formatUint i.natAbs⟩ else ⟨formatUint i.natAbs⟩

/-! ## Request paths

The first argument of each `getRequest` call, as `fmt.Sprintf` builds it. -/

/-- Path of `RandomImage` (line 56). -/
def RandomImagePath : String :=
  "breeds/image/random"

/-- Path of `MultipleRandomImages` (line 81). -/
def MultipleRandomImagesPath (imagesNumber : Int) : String :=
  "breeds/image/random/" ++ formatInt imagesNumber

/-- Path of `RandomImageByBreed` (line 109). -/
def RandomImageByBreedPath (breed : String) : String :=
  "breed/" ++ TrimSpace breed ++ "/images/random"

/-- Path of `MultipleRandomImagesByBreed` (line 133). -/
def MultipleRandomImagesByBreedPath (breed : String) (imagesNumber : Int) : String :=
  "breed/" ++ TrimSpace breed ++ "/images/random/" ++ formatInt imagesNumber

/-- Path of `ImagesByBreed` (line 161). -/
def ImagesByBreedPath (breed : String) : String :=
  "breed/" ++ TrimSpace breed ++ "/images"

/-- Path of `RandomImageBySubBreed` (line 190). -/
def RandomImageBySubBreedPath (breed subBreed : String) : String :=
  "breed/" ++ TrimSpace breed ++ "/" ++ TrimSpace subBreed ++ "/images/random"

/-- Path of `MultipleRandomImagesBySubBreed` (line 215). -/
def MultipleRandomImagesBySubBreedPath (breed subBreed : String) (imagesNumber : Int) : String :=
  "breed/" ++ TrimSpace breed ++ "/" ++ TrimSpace subBreed ++ "/images/random/" ++
    formatInt imagesNumber

/-- Path of `ImagesBySubBreed` (line 244). -/
def ImagesBySubBreedPath (breed subBreed : String) : String :=
  "breed/" ++ TrimSpace breed ++ "/" ++ TrimSpace subBreed ++ "/images"

/-- Path of `BreedsList` (line 270). -/
def BreedsListPath : String :=
  "breeds/list/all"

/-- Path of `SubBreedsList` (line 298). -/
def SubBreedsListPath (breed : String) : String :=
  "breed/" ++ TrimSpace breed ++ "/list"

/-- `getRequest` (lines 38-48): one GET below the fixed base URL; the body as a string, or the error. -/
def getRequest (w : Env) (endpoint : String) : Except String String :=
  w.httpGet ("https://dog.ceo/api/" ++ endpoint)

/-! ## Go maps with string keys -/

/-- The order `<` of character sequences: the order of Go strings (byte by
byte), which on well-formed UTF-8 is the order by code points. -/
def charsLess : List Char → List Char → Bool
  | _, [] => false
  | [], _ :: _ => true
  | a :: as, b :: bs => a.toNat < b.toNat || (a.toNat == b.toNat && charsLess as bs)

/-- The order `<` of Go strings. -/
def keyLess (a b : String) : Bool :=
  charsLess a.data b.data

/-- The map assignment `m[k] = v` on a map kept as a list of bindings with
distinct keys in increasing key order, the order in which `fmt` prints a
map. -/
def mapAssign {β : Type} (k : String) (v : β) : List (String × β) → List (String × β)
  | [] => [(k, v)]
  | (k', v') :: rest =>
    if k = k' then (k, v) :: rest
    else if keyLess k k' then (k, v) :: (k', v') :: rest
    else (k', v') :: mapAssign k v rest

/-- The map an object's members build when they are stored one after the other. -/
def toMap {β : Type} (members : List (String × β)) : List (String × β) :=
  members.foldl (fun m kv => mapAssign kv.1 kv.2 m) []

/-- The map read `m[k]` with a presence flag. -/
def mapLookup {β : Type} (k : String) : List (String × β) → Option β
  | [] => none
  | (k', v') :: rest => if k = k' then some v' else mapLookup k rest

/-- The read `data[key]` of the `map[string]interface{}` decoded from an
object with the given members: the value of the last member with that key,
and the nil interface when there is none. -/
def mapIndex (data : List (String × JSON)) (key : String) : JSON :=
  data.foldl (fun found kv => if kv.1 = key then kv.2 else found) JSON.null

/-- The comparison `v == s` of an interface value with a string constant:
true only for a string with the same content. -/
def isString (v : JSON) (s : String) : Bool :=
  match v with
  | .str t => t == s
  | _ => false

/-! ## The verbs `%v` and `%s` -/

/-- The text `fmt` prints for an operand the verb does not apply to. -/
def badVerb (verb : Char) (typeName shown : String) : String :=
  "%!" ++ String.singleton verb ++ "(" ++ typeName ++ "=" ++ shown ++ ")"

/-- The text `%v` prints for a `bool`. -/
def boolText (b : Bool) : String :=
  if b then "true" else "false"

mutual
/-- The text `fmt` prints for a decoded value under the verb `v` or `s`. -/
def fmtValue (verb : Char) : JSON → String
  | .null => "<nil>"
  | .bool b => if verb = 'v' then boolText b else badVerb verb "bool" (boolText b)
  | .num shown => if verb = 'v' then shown else badVerb verb "float64" shown
  | .str s => s
  | .arr items => "[" ++ " ".intercalate (fmtItems verb items) ++ "]"
  | .obj members =>
    "map[" ++ " ".intercalate ((toMap (fmtMembers verb members)).map
      (fun kv => kv.1 ++ ":" ++ kv.2)) ++ "]"
/-- The texts of the elements of a slice. -/
def fmtItems (verb : Char) : List JSON → List String
  | [] => []
  | x :: xs => fmtValue verb x :: fmtItems verb xs
/-- The keys of an object with the texts of their values. -/
def fmtMembers (verb : Char) : List (String × JSON) → List (String × String)
  | [] => []
  | (k, v) :: xs => (k, fmtValue verb v) :: fmtMembers verb xs
end

/-! ## `encoding/json`: decoding into the program's types -/

/-- The struct `response` (lines 28-31). -/
structure response where
  Status : String
  Message : String

/-- The struct `breedsResponse` (lines 33-36). -/
structure breedsResponse where
  Status : String
  Message : List (String × List String)

/-- The two fields both structs declare, tagged `status` and `message`. -/
inductive Field where
  | status : Field
  | message : Field
  deriving DecidableEq

/-- The field an object key is stored into: the field with exactly that
name, else the field whose name is equal to the key under case folding, else
none (the member is skipped). -/
def fieldOf (w : Env) (key : String) : Option Field :=
  if key = "status" then some .status
  else if key = "message" then some .message
  else if w.foldName key = w.foldName "status" then some .status
  else if w.foldName key = w.foldName "message" then some .message
  else none

/-- The word an `UnmarshalTypeError` uses for a JSON value. -/
def valueName : JSON → String
  | .null => "null"
  | .bool _ => "bool"
  | .num _ => "number"
  | .str _ => "string"
  | .arr _ => "array"
  | .obj _ => "object"

/-- Text of an `UnmarshalTypeError` raised at the top of the document. -/
def typeErrorText (value goType : String) : String :=
  "json: cannot unmarshal " ++ value ++ " into Go value of type " ++ goType

/-- Text of an `UnmarshalTypeError` raised below a struct field. -/
def fieldErrorText (structName field goType value : String) : String :=
  "json: cannot unmarshal " ++ value ++ " into Go struct field " ++ structName ++ "." ++
    field ++ " of type " ++ goType

/-- The decoder keeps the first error it meets and goes on. -/
def saveError (saved err : Option String) : Option String :=
  match saved with
  | some e => some e
  | none => err

/-- Store a value into a Go `string` holding `cur`: a JSON string replaces
it, `null` leaves it, anything else leaves it and is a type error. -/
def storeString (errText : String → String) (cur : String) : JSON → String × Option String
  | .str s => (s, none)
  | .null => (cur, none)
  | v => (cur, some (errText (valueName v)))

/-- One member of an object decoded into a struct whose field `status` is a
`string` and whose field `message` has a type stored into by `storeMessage`:
the member is skipped when no field answers to its key, otherwise its value
is stored into the field.  The state is the struct so far (status, message)
and the saved error. -/
def objectStep {μ : Type} (w : Env) (structName : String)
    (storeMessage : μ → JSON → μ × Option String)
    (st : (String × μ) × Option String) (kv : String × JSON) : (String × μ) × Option String :=
  match fieldOf w kv.1 with
  | none => st
  | some .status =>
    (((storeString (fieldErrorText structName "status" "string") st.1.1 kv.2).1, st.1.2),
      saveError st.2 (storeString (fieldErrorText structName "status" "string") st.1.1 kv.2).2)
  | some .message =>
    ((st.1.1, (storeMessage st.1.2 kv.2).1), saveError st.2 (storeMessage st.1.2 kv.2).2)

/-- The call `json.Unmarshal([]byte(res), &data)` with `data` a zero `response`. -/
def unmarshalResponse (w : Env) (res : String) : Except String response :=
  match w.scan res with
  | .error e => .error e
  | .ok (.obj members) =>
    match members.foldl
      (objectStep w "response" (storeString (fieldErrorText "response" "message" "string")))
      (("", ""), none) with
    | (data, none) => .ok ⟨data.1, data.2⟩
    | (_, some e) => .error e
  | .ok .null => .ok ⟨"", ""⟩
  | .ok v => .error (typeErrorText (valueName v) "dogapi.response")

/-- The call `json.Unmarshal([]byte(res), &data)` with `data` a nil
`map[string]interface{}`: the members of the object, to be read with
`mapIndex`. -/
def unmarshalMap (w : Env) (res : String) : Except String (List (String × JSON)) :=
  match w.scan res with
  | .error e => .error e
  | .ok (.obj members) => .ok members
  | .ok .null => .ok []
  | .ok v => .error (typeErrorText (valueName v) "map[string]interface {}")

/-- Store a value into a fresh `[]string`: the elements of an array, each
stored into a fresh string, and the first type error among them. -/
def storeStringSlice : JSON → List String × Option String
  | .arr items =>
    (items.map (fun x => (storeString (fieldErrorText "breedsResponse" "message" "string") "" x).1),
     (items.filterMap
        (fun x => (storeString (fieldErrorText "breedsResponse" "message" "string") "" x).2)).head?)
  | .null => ([], none)
  | v => ([], some (fieldErrorText "breedsResponse" "message" "[]string" (valueName v)))

/-- One member of the object decoded into the `Message` map. -/
def breedStep (st : List (String × List String) × Option String) (kv : String × JSON) :
    List (String × List String) × Option String :=
  (mapAssign kv.1 (storeStringSlice kv.2).1 st.1, saveError st.2 (storeStringSlice kv.2).2)

/-- Store a value into the `Message` map holding `cur`: the members of an
object are assigned into it, `null` resets it to nil, anything else is a
type error. -/
def storeBreedMap (cur : List (String × List String)) :
    JSON → List (String × List String) × Option String
  | .obj members => members.foldl breedStep (cur, none)
  | .null => ([], none)
  | v => (cur, some (fieldErrorText "breedsResponse" "message" "map[string][]string" (valueName v)))

/-- The call `json.Unmarshal([]byte(res), &br)` with `br` a zero `breedsResponse`. -/
def unmarshalBreedsResponse (w : Env) (res : String) : Except String breedsResponse :=
  match w.scan res with
  | .error e => .error e
  | .ok (.obj members) =>
    match members.foldl (objectStep w "breedsResponse" storeBreedMap) (("", []), none) with
    | (br, none) => .ok ⟨br.1, br.2⟩
    | (_, some e) => .error e
  | .ok .null => .ok ⟨"", []⟩
  | .ok v => .error (typeErrorText (valueName v) "dogapi.breedsResponse")

/-! ## `reflect`: the extraction loop of the list operations -/

/-- The UTF-8 bytes of a character. -/
def utf8Bytes (c : Char) : List Nat :=
  if c.toNat < 0x80 then [c.toNat]
  else if c.toNat < 0x800 then [0xC0 + c.toNat / 64, 0x80 + c.toNat % 64]
  else if c.toNat < 0x10000 then
    [0xE0 + c.toNat / 4096, 0x80 + c.toNat / 64 % 64, 0x80 + c.toNat % 64]
  else
    [0xF0 + c.toNat / 262144, 0x80 + c.toNat / 4096 % 64, 0x80 + c.toNat / 64 % 64,
      0x80 + c.toNat % 64]

/-- The bytes of a Go string. -/
def stringBytes (s : String) : List Nat :=
  s.data.flatMap utf8Bytes

/-- Lines 93-97 (and their copies): `val := reflect.ValueOf(message)`, then
`for i := 0; i < val.Len(); i++` appending `fmt.Sprintf("%s", val.Index(i))`.
`Len` panics on the zero `Value` and on a `bool` or `float64`; on a string
it counts bytes and `Index` yields each byte as a `uint8`; on a map it
counts the keys and `Index` panics.  The result is the slice built, or the
text of the panic. -/
def extractItems : JSON → Except String (List String)
  | .null => .error "reflect: call of reflect.Value.Len on zero Value"
  | .bool _ => .error "reflect: call of reflect.Value.Len on bool Value"
  | .num _ => .error "reflect: call of reflect.Value.Len on float64 Value"
  | .str s => .ok ((stringBytes s).map (fun b => badVerb 's' "uint8" (formatInt b)))
  | .arr items => .ok (fmtItems 's' items)
  | .obj members =>
    if (toMap members).length = 0 then .ok []
    else .error "reflect: call of reflect.Value.Index on map Value"

/-! ## The operations -/

/-- The prefix of the error the operations raise when `json.Unmarshal` fails. -/
def decodePrefix : String :=
  "Something went wrong while reading json: "

/-- Lines 60-68, repeated at 113-121 and 194-202: decode the body into a
`response`, check the status, return the message. -/
def scalarResult (w : Env) (res : String) : Result String :=
  match unmarshalResponse w res with
  | .error err => .returned "" (some (decodePrefix ++ err))
  | .ok data =>
    if data.Status != "success" then .returned "" (some data.Message)
    else .returned data.Message none

/-- Lines 85-98, repeated at 137-150, 165-178, 219-232 and 248-261: decode
the body into a `map[string]interface{}`, check the status, extract the
items of the message. -/
def listResult (w : Env) (res : String) : Result (List String) :=
  match unmarshalMap w res with
  | .error err => .returned [] (some (decodePrefix ++ err))
  | .ok data =>
    if !isString (mapIndex data "status") "success" then
      .returned [] (some (fmtValue 'v' (mapIndex data "message")))
    else
      match extractItems (mapIndex data "message") with
      | .error reason => .panicked reason
      | .ok slice => .returned slice none

/-- `RandomImage` (lines 55-69). -/
def RandomImage (w : Env) : Result String :=
  match getRequest w RandomImagePath with
  | .error err => .returned "" (some err)
  | .ok res => scalarResult w res

/-- `MultipleRandomImages` (lines 80-99); `imagesNumber` is an `int8`. -/
def MultipleRandomImages (w : Env) (imagesNumber : Int) : Result (List String) :=
  match getRequest w (MultipleRandomImagesPath imagesNumber) with
  | .error err => .returned [] (some err)
  | .ok res => listResult w res

/-- `RandomImageByBreed` (lines 108-122). -/
def RandomImageByBreed (w : Env) (breed : String) : Result String :=
  match getRequest w (RandomImageByBreedPath breed) with
  | .error err => .returned "" (some err)
  | .ok res => scalarResult w res

/-- `MultipleRandomImagesByBreed` (lines 132-151); `imagesNumber` is an `int64`. -/
def MultipleRandomImagesByBreed (w : Env) (breed : String) (imagesNumber : Int) :
    Result (List String) :=
  match getRequest w (MultipleRandomImagesByBreedPath breed imagesNumber) with
  | .error err => .returned [] (some err)
  | .ok res => listResult w res

/-- `ImagesByBreed` (lines 160-179). -/
def ImagesByBreed (w : Env) (breed : String) : Result (List String) :=
  match getRequest w (ImagesByBreedPath breed) with
  | .error err => .returned [] (some err)
  | .ok res => listResult w res

/-- `RandomImageBySubBreed` (lines 189-203). -/
def RandomImageBySubBreed (w : Env) (breed subBreed : String) : Result String :=
  match getRequest w (RandomImageBySubBreedPath breed subBreed) with
  | .error err => .returned "" (some err)
  | .ok res => scalarResult w res

/-- `MultipleRandomImagesBySubBreed` (lines 214-233); `imagesNumber` is an `int64`. -/
def MultipleRandomImagesBySubBreed (w : Env) (breed subBreed : String) (imagesNumber : Int) :
    Result (List String) :=
  match getRequest w (MultipleRandomImagesBySubBreedPath breed subBreed imagesNumber) with
  | .error err => .returned [] (some err)
  | .ok res => listResult w res

/-- `ImagesBySubBreed` (lines 243-262). -/
def ImagesBySubBreed (w : Env) (breed subBreed : String) : Result (List String) :=
  match getRequest w (ImagesBySubBreedPath breed subBreed) with
  | .error err => .returned [] (some err)
  | .ok res => listResult w res

/-- `BreedsList` (lines 269-288): the body is decoded twice, first into a
`map[string]interface{}` for the status check, then into a `breedsResponse`. -/
def BreedsList (w : Env) : Result (List (String × List String)) :=
  match getRequest w BreedsListPath with
  | .error err => .returned [] (some err)
  | .ok res =>
    match unmarshalMap w res with
    | .error err => .returned [] (some (decodePrefix ++ err))
    | .ok data =>
      if !isString (mapIndex data "status") "success" then
        .returned [] (some (fmtValue 'v' (mapIndex data "message")))
      else
        match unmarshalBreedsResponse w res with
        | .error err => .returned [] (some (decodePrefix ++ err))
        | .ok br => .returned br.Message none

/-- `SubBreedsList` (lines 297-319): the list extraction followed by the
check `len(slice) == 0`. -/
def SubBreedsList (w : Env) (breed : String) : Result (List String) :=
  match getRequest w (SubBreedsListPath breed) with
  | .error err => .returned [] (some err)
  | .ok res =>
    match unmarshalMap w res with
    | .error err => .returned [] (some (decodePrefix ++ err))
    | .ok data =>
      if !isString (mapIndex data "status") "success" then
        .returned [] (some (fmtValue 'v' (mapIndex data "message")))
      else
        match extractItems (mapIndex data "message") with
        | .error reason => .panicked reason
        | .ok slice =>
          if slice.length = 0 then .returned [] (some "the breed does not have sub-breeds")
          else .returned slice none

/-! ## The vocabulary of the properties -/

/-- The service answers a request for `path` with a body, and that body scans to the tree `v`. -/
def Serves (w : Env) (path : String) (v : JSON) : Prop :=
  ∃ body, getRequest w path = .ok body ∧ w.scan body = .ok v

/-- The service answers a request for `path` with a body that is not well-formed JSON,
`e` being the text of the syntax error. -/
def ServesMalformed (w : Env) (path : String) (e : String) : Prop :=
  ∃ body, getRequest w path = .ok body ∧ w.scan body = .error e

/-- The members of an object that answer to a field. -/
def membersOf (w : Env) (f : Field) (members : List (String × JSON)) : List (String × JSON) :=
  members.filter (fun kv => decide (fieldOf w kv.1 = some f))

/-- The tree is an envelope with the given status and message: a JSON object
in which exactly one member answers to the field `status`, spelled `status`
and holding the string, and exactly one answers to the field `message`,
spelled `message` and holding the message.  Other members are free. -/
def Envelope (w : Env) (v : JSON) (status : String) (message : JSON) : Prop :=
  ∃ members, v = .obj members ∧
    membersOf w .status members = [("status", .str status)] ∧
    membersOf w .message members = [("message", message)]

/-- A character sequence with no white space at either end. -/
def Trimmed (l : List Char) : Prop :=
  (∀ c, l.head? = some c → isSpace c = false) ∧ (∀ c, l.getLast? = some c → isSpace c = false)

/-- The result is a `DecodeError`: an ordinary return of the empty payload
with an error whose text is the fixed prefix followed by the text of the
underlying decoding error. -/
def IsDecodeError {α : Type} (empty : α) (r : Result α) : Prop :=
  ∃ e, r = .returned empty (some (decodePrefix ++ e))

/-- A value that cannot be stored into a Go `string`. -/
def notStringLike : JSON → Bool
  | .str _ => false
  | .null => false
  | _ => true

/-- A value that cannot be stored into a `map[string][]string`. -/
def notMapLike : JSON → Bool
  | .obj _ => false
  | .null => false
  | _ => true

/-- The binding of a key in a JSON object whose values are arrays of strings,
the last occurrence of a repeated key winning. -/
def lastBinding (k : String) (breeds : List (String × List String)) : Option (List String) :=
  breeds.foldl (fun found kv => if kv.1 = k then some kv.2 else found) none

/-- The value a base-10 digit sequence denotes. -/
def decimalValue (digits : List Char) : Nat :=
  digits.foldl (fun acc c => 10 * acc + (c.toNat - 48)) 0

/-- The integer a base-10 text with an optional leading minus sign denotes. -/
def readInt (s : String) : Int :=
  match s.data with
  | '-' :: digits => - (decimalValue digits : Int)
  | digits => (decimalValue digits : Int)

/-! ## Sample environments -/

/-- ASCII upper-casing, a case folding for sample keys. -/
def upperAscii (s : String) : String :=
  ⟨s.data.map (fun c => if 97 ≤ c.toNat ∧ c.toNat ≤ 122 then Char.ofNat (c.toNat - 32) else c)⟩

/-- A service that answers every request with the same body, whose scan is given. -/
def fixedReply (body : String) (scanned : Except String JSON) : Env where
  httpGet := fun _ => .ok body
  scan := fun text => if text = body then scanned else .error "unexpected end of JSON input"
  foldName := upperAscii

/-- The reply of the remote service for an unknown breed. -/
def notFoundBody : String :=
  "\x7b\"status\":\"error\",\"message\":\"Breed not found (error code 404)\"\x7d"

/-- The scan of `notFoundBody`. -/
def notFoundTree : JSON :=
  .obj [("status", .str "error"), ("message", .str "Breed not found (error code 404)")]

/-- A reply carrying one image. -/
def imageBody : String :=
  "\x7b\"message\":\"https://images.dog.ceo/breeds/hound-afghan/n02088094_1003.jpg\",\"status\":\"success\"\x7d"

/-- The scan of `imageBody`. -/
def imageTree : JSON :=
  .obj [("message", .str "https://images.dog.ceo/breeds/hound-afghan/n02088094_1003.jpg"),
    ("status", .str "success")]

/-- A reply carrying two strings. -/
def pairBody : String :=
  "\x7b\"message\":[\"afghan\",\"basset\"],\"status\":\"success\"\x7d"

/-- The scan of `pairBody`. -/
def pairTree : JSON :=
  .obj [("message", .arr [.str "afghan", .str "basset"]), ("status", .str "success")]

/-- A reply carrying an empty array. -/
def emptyListBody : String :=
  "\x7b\"message\":[],\"status\":\"success\"\x7d"

/-- The scan of `emptyListBody`. -/
def emptyListTree : JSON :=
  .obj [("message", .arr []), ("status", .str "success")]

/-- A reply listing one breed with two sub-breeds. -/
def houndBody : String :=
  "\x7b\"message\":\x7b\"hound\":[\"afghan\",\"english\"]\x7d,\"status\":\"success\"\x7d"

/-- The scan of `houndBody`. -/
def houndTree : JSON :=
  .obj [("message", .obj [("hound", .arr [.str "afghan", .str "english"])]),
    ("status", .str "success")]

/-- A reply whose array holds a string, a number, a boolean, a null and an array. -/
def mixedBody : String :=
  "\x7b\"message\":[\"a.jpg\",7,true,null,[\"b\",1.5]],\"status\":\"success\"\x7d"

/-- The scan of `mixedBody`. -/
def mixedTree : JSON :=
  .obj [("message", .arr [.str "a.jpg", .num "7", .bool true, .null,
      .arr [.str "b", .num "1.5"]]),
    ("status", .str "success")]

/-- A reply with a status and no message. -/
def bareBody : String :=
  "\x7b\"status\":\"success\"\x7d"

/-- The scan of `bareBody`. -/
def bareTree : JSON :=
  .obj [("status", .str "success")]

/-- A reply whose message is a number. -/
def numberBody : String :=
  "\x7b\"status\":\"success\",\"message\":404\x7d"

/-- The scan of `numberBody`. -/
def numberTree : JSON :=
  .obj [("status", .str "success"), ("message", .num "404")]

/-- A reply that is a JSON array. -/
def arrayBody : String :=
  "[1,2]"

/-- The scan of `arrayBody`. -/
def arrayTree : JSON :=
  .arr [.num "1", .num "2"]

/-- A reply cut off in the middle. -/
def truncatedBody : String :=
  "\x7b\"status\":\"succ"

/-! ## Lemmas: trimming -/

theorem dropWhile_of_head {l : List Char} (h : ∀ c, l.head? = some c → isSpace c = false) :
    l.dropWhile isSpace = l := by
  cases l with
  | nil => rfl
  | cons a t => simp [List.dropWhile_cons, h a (by simp)]

theorem rdropWhile_of_last {l : List Char} (h : ∀ c, l.getLast? = some c → isSpace c = false) :
    l.rdropWhile isSpace = l := by
  rw [List.rdropWhile_eq_self_iff]
  intro hl
  have := h (l.getLast hl) (List.getLast?_eq_getLast l hl)
  simp [this]

theorem trimChars_of_trimmed {l : List Char} (h : Trimmed l) : trimChars l = l := by
  unfold trimChars trimRight
  rw [dropWhile_of_head h.1, rdropWhile_of_last h.2]

theorem head_dropWhile_isSpace (l : List Char) (c : Char)
    (h : (l.dropWhile isSpace).head? = some c) : isSpace c = false := by
  have := List.head?_dropWhile_not isSpace l
  rw [h] at this
  exact this

theorem head_rdropWhile (l : List Char) (c : Char)
    (h : (l.rdropWhile isSpace).head? = some c) : l.head? = some c := by
  obtain ⟨t, ht⟩ := List.rdropWhile_prefix isSpace l
  cases hr : l.rdropWhile isSpace with
  | nil => rw [hr] at h; simp at h
  | cons a r =>
    rw [hr] at h ht
    rw [← ht]
    simpa using h

theorem trimmed_trimChars (l : List Char) : Trimmed (trimChars l) := by
  unfold trimChars trimRight
  constructor
  · intro c hc
    exact head_dropWhile_isSpace l c (head_rdropWhile _ c hc)
  · intro c hc
    cases hr : (l.dropWhile isSpace).rdropWhile isSpace with
    | nil => rw [hr] at hc; simp at hc
    | cons a r =>
      have hne : (l.dropWhile isSpace).rdropWhile isSpace ≠ [] := by rw [hr]; simp
      have h1 := List.rdropWhile_last_not isSpace (l.dropWhile isSpace) hne
      have h2 := List.getLast?_eq_getLast _ hne
      rw [hc] at h2
      injection h2 with h2
      rw [← h2] at h1
      simpa using h1

theorem trimChars_idem (l : List Char) : trimChars (trimChars l) = trimChars l :=
  trimChars_of_trimmed (trimmed_trimChars l)

/-- Joining two trimmed sequences with a character that is not white space gives a trimmed sequence. -/
theorem trimmed_join {a b : List Char} (c : Char) (ha : Trimmed a) (hb : Trimmed b)
    (hc : isSpace c = false) : Trimmed (a ++ c :: b) := by
  constructor
  · intro x hx
    cases a with
    | nil => simp at hx; rw [← hx]; exact hc
    | cons y t => exact ha.1 x (by simpa using hx)
  · intro x hx
    cases b using List.reverseRecOn with
    | nil =>
      have : (a ++ [c]).getLast? = some c := by simp
      rw [this] at hx; injection hx with hx; rw [← hx]; exact hc
    | append_singleton t y _ =>
      have : (a ++ c :: (t ++ [y])).getLast? = some y := by
        rw [show a ++ c :: (t ++ [y]) = (a ++ c :: t) ++ [y] by simp]
        exact List.getLast?_concat _
      rw [this] at hx; injection hx with hx
      exact hb.2 x (by rw [← hx]; simp)

/-- The white space `TrimSpace` removes: the sequence is the trimmed one between two runs of white space. -/
theorem trimChars_decomp (l : List Char) :
    l = l.takeWhile isSpace ++ trimChars l ++ (l.dropWhile isSpace).rtakeWhile isSpace := by
  have h : ∀ d : List Char, d.rdropWhile isSpace ++ d.rtakeWhile isSpace = d := by
    intro d
    rw [List.rdropWhile, List.rtakeWhile, ← List.reverse_append,
      List.takeWhile_append_dropWhile, List.reverse_reverse]
  unfold trimChars trimRight
  rw [List.append_assoc, h, List.takeWhile_append_dropWhile]

theorem TrimSpace_data (s : String) : (TrimSpace s).data = trimChars s.data := rfl

theorem TrimSpace_of_trimmed (s : String) (h : Trimmed s.data) : TrimSpace s = s := by
  apply String.ext
  rw [TrimSpace_data, trimChars_of_trimmed h]

theorem TrimSpace_idem (s : String) : TrimSpace (TrimSpace s) = TrimSpace s :=
  TrimSpace_of_trimmed _ (trimmed_trimChars s.data)

theorem trimmed_literal_images_random : Trimmed "images/random".data := by
  constructor <;> intro c hc <;> simp at hc <;> rw [← hc] <;> decide

theorem TrimSpace_join_sub (b s : String) :
    TrimSpace (TrimSpace b ++ "/" ++ TrimSpace s) = TrimSpace b ++ "/" ++ TrimSpace s := by
  apply TrimSpace_of_trimmed
  have : (TrimSpace b ++ "/" ++ TrimSpace s).data = trimChars b.data ++ '/' :: trimChars s.data := by
    simp [String.data_append, TrimSpace_data]
  rw [this]
  exact trimmed_join '/' (trimmed_trimChars _) (trimmed_trimChars _) (by decide)

theorem TrimSpace_join_random (b : String) :
    TrimSpace (TrimSpace b ++ "/images/random") = TrimSpace b ++ "/images/random" := by
  apply TrimSpace_of_trimmed
  have : (TrimSpace b ++ "/images/random").data = trimChars b.data ++ '/' :: "images/random".data := by
    simp [String.data_append, TrimSpace_data]
  rw [this]
  exact trimmed_join '/' (trimmed_trimChars _) trimmed_literal_images_random (by decide)

/-! ## Lemmas: decimal text -/

theorem digitChar_toNat (d : Nat) (h : d < 10) : (digitChar d).toNat = 48 + d := by
  interval_cases d <;> rfl

theorem digitChar_ne_minus (d : Nat) (h : d < 10) : digitChar d ≠ '-' := by
  interval_cases d <;> decide

theorem decimalRev_lt (fuel u : Nat) : ∀ d ∈ decimalRev fuel u, d < 10 := by
  induction fuel generalizing u with
  | zero => intro d hd; simp [decimalRev] at hd
  | succ n ih =>
    intro d hd
    unfold decimalRev at hd
    split at hd
    · simp at hd; omega
    · simp at hd
      rcases hd with hd | hd
      · omega
      · exact ih _ d hd

theorem decimalRev_ne_nil (fuel u : Nat) : decimalRev (fuel + 1) u ≠ [] := by
  unfold decimalRev
  split <;> simp

theorem decimalRev_value (fuel u : Nat) (h : u < fuel) :
    (decimalRev fuel u).foldr (fun d acc => d + 10 * acc) 0 = u := by
  induction fuel generalizing u with
  | zero => omega
  | succ n ih =>
    unfold decimalRev
    split
    · simp
    · rw [List.foldr_cons, ih (u / 10) (by omega)]
      omega

theorem decimalValue_snoc (l : List Char) (c : Char) :
    decimalValue (l ++ [c]) = 10 * decimalValue l + (c.toNat - 48) := by
  simp [decimalValue, List.foldl_append]

theorem decimalValue_digits (ds : List Nat) (h : ∀ d ∈ ds, d < 10) :
    decimalValue (ds.reverse.map digitChar) = ds.foldr (fun d acc => d + 10 * acc) 0 := by
  induction ds with
  | nil => rfl
  | cons d t ih =>
    rw [List.reverse_cons, List.map_append, List.map_singleton, decimalValue_snoc,
      ih (fun x hx => h x (List.mem_cons_of_mem _ hx)), digitChar_toNat d (h d (List.mem_cons_self _ _)),
      List.foldr_cons]
    omega

theorem decimalValue_formatUint (u : Nat) : decimalValue (formatUint u) = u := by
  unfold formatUint
  rw [decimalValue_digits _ (decimalRev_lt _ _), decimalRev_value _ _ (Nat.lt_succ_self u)]

theorem formatUint_head (u : Nat) : ∃ c t, formatUint u = c :: t ∧ c ≠ '-' := by
  unfold formatUint
  have hne := decimalRev_ne_nil u u
  have hlt := decimalRev_lt (u + 1) u
  cases hr : (decimalRev (u + 1) u).reverse with
  | nil => simp at hr; exact absurd hr hne
  | cons d t =>
    refine ⟨digitChar d, t.map digitChar, by simp, ?_⟩
    apply digitChar_ne_minus
    apply hlt
    rw [← List.mem_reverse, hr]
    exact List.mem_cons_self _ _

theorem readInt_formatInt (i : Int) : readInt (formatInt i) = i := by
  unfold formatInt
  split
  · rename_i h
    simp only [readInt, decimalValue_formatUint]
    omega
  · rename_i h
    obtain ⟨c, t, hct, hc⟩ := formatUint_head i.natAbs
    have hv := decimalValue_formatUint i.natAbs
    rw [hct] at hv
    unfold readInt
    simp only [hct]
    split
    · rename_i heq
      injection heq with h1 h2
      exact absurd h1 hc
    · rename_i heq
      rw [hv]
      omega

/-! ## Lemmas: maps and formatting -/

theorem mapIndex_filter_aux (key : String) (members : List (String × JSON)) (acc : JSON) :
    members.foldl (fun found kv => if kv.1 = key then kv.2 else found) acc =
      (members.filter (fun kv => decide (kv.1 = key))).foldl
        (fun found kv => if kv.1 = key then kv.2 else found) acc := by
  induction members generalizing acc with
  | nil => rfl
  | cons kv rest ih =>
    by_cases h : kv.1 = key
    · simp [List.filter_cons, h, ih]
    · simp [List.filter_cons, h, ih]

theorem filter_of_imp {α : Type} (p q : α → Bool) (h : ∀ x, q x = true → p x = true)
    (l : List α) : l.filter q = (l.filter p).filter q := by
  rw [List.filter_filter]
  congr 1
  funext x
  cases hq : q x with
  | false => simp
  | true => simp [h x hq]

theorem fieldOf_status (w : Env) : fieldOf w "status" = some Field.status := by
  simp [fieldOf]

theorem fieldOf_message (w : Env) : fieldOf w "message" = some Field.message := by
  unfold fieldOf
  rw [if_neg (by decide), if_pos rfl]

theorem mapIndex_of_membersOf (w : Env) (members : List (String × JSON)) (f : Field)
    (key : String) (v : JSON) (hkey : fieldOf w key = some f)
    (h : membersOf w f members = [(key, v)]) : mapIndex members key = v := by
  unfold mapIndex
  rw [mapIndex_filter_aux,
    filter_of_imp (fun kv : String × JSON => decide (fieldOf w kv.1 = some f))
      (fun kv => decide (kv.1 = key)) (by
        intro x hx
        simp only [decide_eq_true_eq] at hx ⊢
        rw [hx]; exact hkey) members]
  unfold membersOf at h
  rw [h]
  simp

theorem fmtItems_eq_map (verb : Char) (items : List JSON) :
    fmtItems verb items = items.map (fmtValue verb) := by
  induction items with
  | nil => simp [fmtItems]
  | cons x xs ih => simp [fmtItems, ih]

theorem fmtValue_str (verb : Char) (s : String) : fmtValue verb (.str s) = s := by
  simp [fmtValue]

theorem fmtItems_strings (verb : Char) (L : List String) :
    fmtItems verb (L.map JSON.str) = L := by
  induction L with
  | nil => simp [fmtItems]
  | cons x xs ih => simp [fmtItems, fmtValue, ih]

theorem mapLookup_mapAssign {β : Type} (k k' : String) (v : β) (m : List (String × β)) :
    mapLookup k (mapAssign k' v m) = if k = k' then some v else mapLookup k m := by
  induction m with
  | nil => simp [mapAssign, mapLookup]
  | cons kv rest ih =>
    obtain ⟨a, b⟩ := kv
    unfold mapAssign
    by_cases h1 : k' = a
    · subst h1
      by_cases h2 : k = k' <;> simp [mapLookup, h2]
    · by_cases h3 : keyLess k' a = true
      · by_cases h2 : k = k' <;> simp [mapLookup, h1, h2, h3]
      · by_cases h2 : k = k'
        · subst h2
          simp [mapLookup, h1, h3, ih]
        · simp [mapLookup, h1, h2, h3, ih]

theorem mapLookup_assignAll (k : String) (breeds : List (String × List String))
    (cur : List (String × List String)) :
    mapLookup k (breeds.foldl (fun m kv => mapAssign kv.1 kv.2 m) cur) =
      breeds.foldl (fun found kv => if kv.1 = k then some kv.2 else found) (mapLookup k cur) := by
  induction breeds generalizing cur with
  | nil => rfl
  | cons kv rest ih =>
    simp only [List.foldl_cons]
    rw [ih, mapLookup_mapAssign]
    by_cases h : k = kv.1
    · simp [h]
    · have : ¬ kv.1 = k := fun h' => h h'.symm
      simp [h, this]

/-! ## Lemmas: struct decoding -/

theorem storeString_str (g : String → String) (cur s : String) :
    storeString g cur (.str s) = (s, none) := rfl

theorem storeString_ok (g : String → String) (cur : String) (v : JSON)
    (h : notStringLike v = false) : (storeString g cur v).2 = none := by
  cases v <;> first | rfl | simp [notStringLike] at h

theorem storeString_bad (g : String → String) (cur : String) (v : JSON)
    (h : notStringLike v = true) : (storeString g cur v).2 = some (g (valueName v)) := by
  cases v <;> first | rfl | simp [notStringLike] at h

theorem storeStringSlice_strings (L : List String) :
    storeStringSlice (.arr (L.map JSON.str)) = (L, none) := by
  have h1 : ∀ (g : String → String) (L : List String),
      (L.map JSON.str).map (fun x => (storeString g "" x).1) = L := by
    intro g L
    induction L with
    | nil => rfl
    | cons x xs ih => rw [List.map_cons, List.map_cons, ih, storeString_str]
  have h2 : ∀ (g : String → String) (L : List String),
      (L.map JSON.str).filterMap (fun x => (storeString g "" x).2) = [] := by
    intro g L
    induction L with
    | nil => rfl
    | cons x xs ih => rw [List.map_cons, List.filterMap_cons, storeString_str, ih]
  show (_, _) = _
  rw [h1, h2]
  rfl

theorem breedSteps_strings (breeds : List (String × List String))
    (cur : List (String × List String)) :
    (breeds.map (fun kv => (kv.1, JSON.arr (kv.2.map JSON.str)))).foldl breedStep (cur, none) =
      (breeds.foldl (fun m kv => mapAssign kv.1 kv.2 m) cur, none) := by
  induction breeds generalizing cur with
  | nil => rfl
  | cons kv rest ih =>
    simp only [List.map_cons, List.foldl_cons]
    rw [show breedStep (cur, none) (kv.1, JSON.arr (kv.2.map JSON.str)) =
      (mapAssign kv.1 kv.2 cur, none) by simp [breedStep, storeStringSlice_strings, saveError]]
    exact ih _

theorem saveError_some (e : String) (err : Option String) : saveError (some e) err = some e := rfl

theorem saveError_none (saved : Option String) : saveError saved none = saved := by
  cases saved <;> rfl

theorem objectStep_sticky {μ : Type} (w : Env) (n : String) (store : μ → JSON → μ × Option String)
    (members : List (String × JSON)) (st : (String × μ) × Option String) (e : String)
    (h : st.2 = some e) : (members.foldl (objectStep w n store) st).2 = some e := by
  induction members generalizing st with
  | nil => exact h
  | cons kv rest ih =>
    simp only [List.foldl_cons]
    apply ih
    unfold objectStep
    cases fieldOf w kv.1 with
    | none => exact h
    | some f => cases f <;> (show saveError st.2 _ = some e) <;> rw [h] <;> rfl

theorem objectStep_skip {μ : Type} (w : Env) (n : String) (store : μ → JSON → μ × Option String)
    (st : (String × μ) × Option String) (kv : String × JSON) (hf : fieldOf w kv.1 = none) :
    objectStep w n store st kv = st := by
  unfold objectStep; rw [hf]

theorem objectStep_status {μ : Type} (w : Env) (n : String) (store : μ → JSON → μ × Option String)
    (st : (String × μ) × Option String) (kv : String × JSON)
    (hf : fieldOf w kv.1 = some .status) :
    objectStep w n store st kv =
      (((storeString (fieldErrorText n "status" "string") st.1.1 kv.2).1, st.1.2),
        saveError st.2 (storeString (fieldErrorText n "status" "string") st.1.1 kv.2).2) := by
  unfold objectStep; rw [hf]

theorem objectStep_message {μ : Type} (w : Env) (n : String) (store : μ → JSON → μ × Option String)
    (st : (String × μ) × Option String) (kv : String × JSON)
    (hf : fieldOf w kv.1 = some .message) :
    objectStep w n store st kv =
      ((st.1.1, (store st.1.2 kv.2).1), saveError st.2 (store st.1.2 kv.2).2) := by
  unfold objectStep; rw [hf]

theorem membersOf_cons_pos (w : Env) (f : Field) (kv : String × JSON)
    (rest : List (String × JSON)) (h : fieldOf w kv.1 = some f) :
    membersOf w f (kv :: rest) = kv :: membersOf w f rest := by
  unfold membersOf
  rw [List.filter_cons_of_pos (by simpa using h)]

theorem membersOf_cons_neg (w : Env) (f : Field) (kv : String × JSON)
    (rest : List (String × JSON)) (h : fieldOf w kv.1 ≠ some f) :
    membersOf w f (kv :: rest) = membersOf w f rest := by
  unfold membersOf
  rw [List.filter_cons_of_neg (by simpa using h)]

/-- The fields after decoding: each is what its own members leave in it, and
no error is saved when every member stores without one. -/
theorem objectSteps_fields {μ : Type} (w : Env) (n : String)
    (store : μ → JSON → μ × Option String) (members : List (String × JSON))
    (st : (String × μ) × Option String)
    (hs : ∀ kv ∈ membersOf w .status members, notStringLike kv.2 = false)
    (hm : ∀ kv ∈ membersOf w .message members, ∀ cur, (store cur kv.2).2 = none) :
    members.foldl (objectStep w n store) st =
      (((membersOf w .status members).foldl
          (fun cur kv => (storeString (fieldErrorText n "status" "string") cur kv.2).1) st.1.1,
        (membersOf w .message members).foldl (fun cur kv => (store cur kv.2).1) st.1.2),
       st.2) := by
  induction members generalizing st with
  | nil => rfl
  | cons kv rest ih =>
    rw [List.foldl_cons]
    cases hf : fieldOf w kv.1 with
    | none =>
      rw [membersOf_cons_neg w .status kv rest (by rw [hf]; simp)] at hs ⊢
      rw [membersOf_cons_neg w .message kv rest (by rw [hf]; simp)] at hm ⊢
      rw [objectStep_skip w n store st kv hf]
      exact ih st hs hm
    | some f =>
      cases f with
      | status =>
        rw [membersOf_cons_pos w .status kv rest hf] at hs ⊢
        rw [membersOf_cons_neg w .message kv rest (by rw [hf]; simp)] at hm ⊢
        have herr := storeString_ok (fieldErrorText n "status" "string") st.1.1 kv.2
          (hs kv (List.mem_cons_self _ _))
        rw [objectStep_status w n store st kv hf, herr, saveError_none,
          ih _ (fun x hx => hs x (List.mem_cons_of_mem _ hx)) hm, List.foldl_cons]
      | message =>
        rw [membersOf_cons_neg w .status kv rest (by rw [hf]; simp)] at hs ⊢
        rw [membersOf_cons_pos w .message kv rest hf] at hm ⊢
        have herr := hm kv (List.mem_cons_self _ _) st.1.2
        rw [objectStep_message w n store st kv hf, herr, saveError_none,
          ih _ hs (fun x hx => hm x (List.mem_cons_of_mem _ hx)), List.foldl_cons]

/-- A member that answers to a field and cannot be stored into it leaves an error saved. -/
theorem objectSteps_error {μ : Type} (w : Env) (n : String)
    (store : μ → JSON → μ × Option String) (members : List (String × JSON))
    (st : (String × μ) × Option String)
    (h : ∃ kv ∈ members,
      (fieldOf w kv.1 = some .status ∧ notStringLike kv.2 = true) ∨
      (fieldOf w kv.1 = some .message ∧ ∀ cur, ∃ e, (store cur kv.2).2 = some e)) :
    ∃ e, (members.foldl (objectStep w n store) st).2 = some e := by
  induction members generalizing st with
  | nil => obtain ⟨kv, hkv, _⟩ := h; simp at hkv
  | cons x rest ih =>
    rw [List.foldl_cons]
    obtain ⟨kv, hkv, hbad⟩ := h
    rcases List.mem_cons.mp hkv with hx | hx
    · subst hx
      have : ∃ e, (objectStep w n store st kv).2 = some e := by
        rcases hbad with ⟨hf, hv⟩ | ⟨hf, hv⟩
        · rw [objectStep_status w n store st kv hf, storeString_bad _ _ _ hv]
          cases hst : st.2 with
          | some e0 => exact ⟨e0, rfl⟩
          | none => exact ⟨_, rfl⟩
        · obtain ⟨e, he⟩ := hv st.1.2
          rw [objectStep_message w n store st kv hf, he]
          cases hst : st.2 with
          | some e0 => exact ⟨e0, rfl⟩
          | none => exact ⟨_, rfl⟩
      obtain ⟨e, he⟩ := this
      exact ⟨e, objectStep_sticky w n store rest _ e he⟩
    · exact ih _ ⟨kv, hx, hbad⟩

/-! ## Lemmas: the operations on an envelope -/

theorem unmarshalResponse_envelope (w : Env) (body : String) (v : JSON) (status m : String)
    (hscan : w.scan body = .ok v) (henv : Envelope w v status (.str m)) :
    unmarshalResponse w body = .ok ⟨status, m⟩ := by
  obtain ⟨members, rfl, hs, hm⟩ := henv
  unfold unmarshalResponse
  rw [hscan]
  simp only []
  rw [objectSteps_fields w "response" _ members _
    (by rw [hs]; intro kv hkv; rw [List.mem_singleton.mp hkv]; rfl)
    (by rw [hm]; intro kv hkv cur; rw [List.mem_singleton.mp hkv]; rfl), hs, hm]
  rfl

theorem unmarshalMap_envelope (w : Env) (body : String) (v : JSON) (status : String)
    (message : JSON) (hscan : w.scan body = .ok v) (henv : Envelope w v status message) :
    ∃ members, unmarshalMap w body = .ok members ∧
      mapIndex members "status" = .str status ∧ mapIndex members "message" = message := by
  obtain ⟨members, rfl, hs, hm⟩ := henv
  refine ⟨members, ?_, mapIndex_of_membersOf w members .status "status" _ (fieldOf_status w) hs,
    mapIndex_of_membersOf w members .message "message" _ (fieldOf_message w) hm⟩
  unfold unmarshalMap
  rw [hscan]

theorem isString_str (s t : String) : isString (.str s) t = decide (s = t) := by
  show (s == t) = decide (s = t)
  by_cases h : s = t <;> simp [h]

theorem scalar_served (w : Env) (path : String) (v : JSON) (status m : String)
    (hs : Serves w path v) (henv : Envelope w v status (.str m)) :
    (match getRequest w path with
      | .error err => Result.returned "" (some err)
      | .ok res => scalarResult w res) =
    if status = "success" then .returned m none else .returned "" (some m) := by
  obtain ⟨body, hget, hscan⟩ := hs
  rw [hget]
  simp only [scalarResult]
  rw [unmarshalResponse_envelope w body v status m hscan henv]
  by_cases h : status = "success" <;> simp [h]

theorem listResult_envelope (w : Env) (body : String) (v : JSON) (status : String)
    (message : JSON) (hscan : w.scan body = .ok v) (henv : Envelope w v status message) :
    listResult w body =
      if status = "success" then
        (match extractItems message with
          | .error reason => .panicked reason
          | .ok slice => .returned slice none)
      else .returned [] (some (fmtValue 'v' message)) := by
  obtain ⟨members, hm, h1, h2⟩ := unmarshalMap_envelope w body v status message hscan henv
  unfold listResult
  rw [hm]
  simp only []
  rw [h1, h2, isString_str]
  by_cases h : status = "success" <;> simp [h]

theorem list_served (w : Env) (path : String) (v : JSON) (status : String) (message : JSON)
    (hs : Serves w path v) (henv : Envelope w v status message) :
    (match getRequest w path with
      | .error err => Result.returned [] (some err)
      | .ok res => listResult w res) =
    if status = "success" then
      (match extractItems message with
        | .error reason => .panicked reason
        | .ok slice => .returned slice none)
    else .returned [] (some (fmtValue 'v' message)) := by
  obtain ⟨body, hget, hscan⟩ := hs
  rw [hget]
  exact listResult_envelope w body v status message hscan henv

theorem list_served_items (w : Env) (path : String) (v : JSON) (items : List JSON)
    (hs : Serves w path v) (henv : Envelope w v "success" (.arr items)) :
    (match getRequest w path with
      | .error err => Result.returned [] (some err)
      | .ok res => listResult w res) = .returned (items.map (fmtValue 's')) none := by
  rw [list_served w path v "success" _ hs henv, if_pos rfl]
  simp only [extractItems, fmtItems_eq_map]

theorem list_served_strings (w : Env) (path : String) (v : JSON) (L : List String)
    (hs : Serves w path v) (henv : Envelope w v "success" (.arr (L.map JSON.str))) :
    (match getRequest w path with
      | .error err => Result.returned [] (some err)
      | .ok res => listResult w res) = .returned L none := by
  rw [list_served w path v "success" _ hs henv, if_pos rfl]
  simp only [extractItems, fmtItems_strings]

theorem list_served_failure (w : Env) (path : String) (v : JSON) (status m : String)
    (hne : status ≠ "success") (hs : Serves w path v) (henv : Envelope w v status (.str m)) :
    (match getRequest w path with
      | .error err => Result.returned [] (some err)
      | .ok res => listResult w res) = .returned [] (some m) := by
  rw [list_served w path v status _ hs henv, if_neg hne, fmtValue_str]

theorem subBreeds_served (w : Env) (breed : String) (v : JSON) (status : String)
    (message : JSON) (hs : Serves w (SubBreedsListPath breed) v)
    (henv : Envelope w v status message) :
    SubBreedsList w breed =
      if status = "success" then
        (match extractItems message with
          | .error reason => .panicked reason
          | .ok slice =>
            if slice.length = 0 then .returned [] (some "the breed does not have sub-breeds")
            else .returned slice none)
      else .returned [] (some (fmtValue 'v' message)) := by
  obtain ⟨body, hget, hscan⟩ := hs
  obtain ⟨members, hm, h1, h2⟩ := unmarshalMap_envelope w body v status message hscan henv
  unfold SubBreedsList
  rw [hget]
  simp only []
  rw [hm]
  simp only []
  rw [h1, h2, isString_str]
  by_cases h : status = "success" <;> simp [h]

theorem storeBreedMap_strings (breeds : List (String × List String))
    (cur : List (String × List String)) :
    storeBreedMap cur (.obj (breeds.map (fun kv => (kv.1, JSON.arr (kv.2.map JSON.str))))) =
      (breeds.foldl (fun m kv => mapAssign kv.1 kv.2 m) cur, none) := by
  show List.foldl breedStep (cur, none) _ = _
  exact breedSteps_strings breeds cur

theorem unmarshalBreedsResponse_envelope (w : Env) (body : String) (v : JSON)
    (breeds : List (String × List String)) (hscan : w.scan body = .ok v)
    (henv : Envelope w v "success"
      (.obj (breeds.map (fun kv => (kv.1, JSON.arr (kv.2.map JSON.str)))))) :
    unmarshalBreedsResponse w body = .ok ⟨"success", toMap breeds⟩ := by
  obtain ⟨members, rfl, hs, hm⟩ := henv
  unfold unmarshalBreedsResponse
  rw [hscan]
  simp only []
  rw [objectSteps_fields w "breedsResponse" _ members _
    (by rw [hs]; intro kv hkv; rw [List.mem_singleton.mp hkv]; rfl)
    (by
      rw [hm]; intro kv hkv cur; rw [List.mem_singleton.mp hkv]
      show (storeBreedMap cur _).2 = none
      rw [storeBreedMap_strings]), hs, hm]
  simp only [List.foldl_cons, List.foldl_nil, storeBreedMap_strings, storeString_str]
  rfl

theorem breedsList_failure (w : Env) (v : JSON) (status m : String) (hne : status ≠ "success")
    (hs : Serves w BreedsListPath v) (henv : Envelope w v status (.str m)) :
    BreedsList w = .returned [] (some m) := by
  obtain ⟨body, hget, hscan⟩ := hs
  obtain ⟨members, hm, h1, h2⟩ := unmarshalMap_envelope w body v status _ hscan henv
  unfold BreedsList
  rw [hget]
  simp only []
  rw [hm]
  simp only []
  rw [h1, h2, isString_str, fmtValue_str]
  simp [hne]

theorem breedsList_success (w : Env) (v : JSON) (breeds : List (String × List String))
    (hs : Serves w BreedsListPath v)
    (henv : Envelope w v "success"
      (.obj (breeds.map (fun kv => (kv.1, JSON.arr (kv.2.map JSON.str)))))) :
    BreedsList w = .returned (toMap breeds) none := by
  obtain ⟨body, hget, hscan⟩ := hs
  obtain ⟨members, hm, h1, h2⟩ := unmarshalMap_envelope w body v "success" _ hscan henv
  unfold BreedsList
  rw [hget]
  simp only []
  rw [hm]
  simp only []
  rw [h1, isString_str, unmarshalBreedsResponse_envelope w body v breeds hscan henv]
  simp

theorem mapLookup_toMap (k : String) (breeds : List (String × List String)) :
    mapLookup k (toMap breeds) = lastBinding k breeds := by
  unfold toMap lastBinding
  rw [mapLookup_assignAll]
  rfl

theorem mapAssign_perm {β : Type} (k : String) (v : β) (m : List (String × β))
    (h : k ∉ m.map Prod.fst) : (mapAssign k v m).Perm ((k, v) :: m) := by
  induction m with
  | nil => exact List.Perm.refl _
  | cons kv rest ih =>
    obtain ⟨a, b⟩ := kv
    have hka : k ≠ a := fun e => h (by simp [e])
    have hrest : k ∉ rest.map Prod.fst := fun hm => h (by simp at hm ⊢; exact Or.inr hm)
    unfold mapAssign
    rw [if_neg hka]
    by_cases hl : keyLess k a = true
    · rw [if_pos hl]
    · rw [if_neg hl]
      exact ((ih hrest).cons (a, b)).trans (List.Perm.swap _ _ _)

theorem assignAll_perm (rest cur : List (String × List String))
    (h : ((cur ++ rest).map Prod.fst).Nodup) :
    (rest.foldl (fun m kv => mapAssign kv.1 kv.2 m) cur).Perm (cur ++ rest) := by
  induction rest generalizing cur with
  | nil => simp
  | cons kv r ih =>
    rw [List.foldl_cons]
    have hmid : (cur ++ kv :: r).Perm (kv :: cur ++ r) := List.perm_middle
    have hnd : ((kv :: cur ++ r).map Prod.fst).Nodup := (hmid.map Prod.fst).nodup_iff.mp h
    have hk : kv.1 ∉ cur.map Prod.fst := by
      intro hmem
      have hnd2 := hnd
      simp only [List.cons_append, List.map_cons, List.nodup_cons, List.map_append,
        List.mem_append] at hnd2
      exact hnd2.1 (Or.inl hmem)
    have hp : (mapAssign kv.1 kv.2 cur).Perm (kv :: cur) := mapAssign_perm kv.1 kv.2 cur hk
    have hp2 : (mapAssign kv.1 kv.2 cur ++ r).Perm (kv :: cur ++ r) := hp.append_right r
    exact (ih _ ((hp2.map Prod.fst).nodup_iff.mpr hnd)).trans (hp2.trans hmid.symm)

theorem toMap_perm (breeds : List (String × List String))
    (h : (breeds.map Prod.fst).Nodup) : (toMap breeds).Perm breeds := by
  have := assignAll_perm breeds [] (by simpa using h)
  simpa [toMap] using this

/-! ## The claims -/

/-- C1: on a body that scans to an envelope with status `success`, the three
single-image operations return the message string with no error, and the
five image-list operations return, for every array of strings `L` (the
empty one included), exactly the list `L` with no error. -/
theorem C1_success_returns_message (w : Env) (v : JSON) :
    (∀ m : String, Envelope w v "success" (.str m) →
      (Serves w RandomImagePath v → RandomImage w = .returned m none) ∧
      (∀ breed, Serves w (RandomImageByBreedPath breed) v →
        RandomImageByBreed w breed = .returned m none) ∧
      (∀ breed sub, Serves w (RandomImageBySubBreedPath breed sub) v →
        RandomImageBySubBreed w breed sub = .returned m none)) ∧
    (∀ L : List String, Envelope w v "success" (.arr (L.map JSON.str)) →
      (∀ n, Serves w (MultipleRandomImagesPath n) v →
        MultipleRandomImages w n = .returned L none) ∧
      (∀ breed n, Serves w (MultipleRandomImagesByBreedPath breed n) v →
        MultipleRandomImagesByBreed w breed n = .returned L none) ∧
      (∀ breed, Serves w (ImagesByBreedPath breed) v →
        ImagesByBreed w breed = .returned L none) ∧
      (∀ breed sub n, Serves w (MultipleRandomImagesBySubBreedPath breed sub n) v →
        MultipleRandomImagesBySubBreed w breed sub n = .returned L none) ∧
      (∀ breed sub, Serves w (ImagesBySubBreedPath breed sub) v →
        ImagesBySubBreed w breed sub = .returned L none)) := by
  refine ⟨fun m henv => ⟨fun hs => ?_, fun breed hs => ?_, fun breed sub hs => ?_⟩,
    fun L henv => ⟨fun n hs => ?_, fun breed n hs => ?_, fun breed hs => ?_,
      fun breed sub n hs => ?_, fun breed sub hs => ?_⟩⟩
  · exact (scalar_served w _ v "success" m hs henv).trans (if_pos rfl)
  · exact (scalar_served w _ v "success" m hs henv).trans (if_pos rfl)
  · exact (scalar_served w _ v "success" m hs henv).trans (if_pos rfl)
  · exact list_served_strings w _ v L hs henv
  · exact list_served_strings w _ v L hs henv
  · exact list_served_strings w _ v L hs henv
  · exact list_served_strings w _ v L hs henv
  · exact list_served_strings w _ v L hs henv

/-- C1 at sample replies: one image, a list of two strings, and the empty list. -/
theorem C1_success_returns_message_witness :
    RandomImage (fixedReply imageBody (.ok imageTree)) =
      .returned "https://images.dog.ceo/breeds/hound-afghan/n02088094_1003.jpg" none ∧
    MultipleRandomImages (fixedReply pairBody (.ok pairTree)) 2 =
      .returned ["afghan", "basset"] none ∧
    ImagesBySubBreed (fixedReply emptyListBody (.ok emptyListTree)) "hound" "afghan" =
      .returned [] none :=
  ⟨(C1_success_returns_message (fixedReply imageBody (.ok imageTree)) imageTree).1 _
      ⟨_, rfl, rfl, rfl⟩ |>.1 ⟨imageBody, rfl, rfl⟩,
   (C1_success_returns_message (fixedReply pairBody (.ok pairTree)) pairTree).2
      ["afghan", "basset"] ⟨_, rfl, rfl, rfl⟩ |>.1 2 ⟨pairBody, rfl, rfl⟩,
   (C1_success_returns_message (fixedReply emptyListBody (.ok emptyListTree)) emptyListTree).2
      [] ⟨_, rfl, rfl, rfl⟩ |>.2.2.2.2 "hound" "afghan" ⟨emptyListBody, rfl, rfl⟩⟩

/-- C2: on a body that scans to an envelope whose status is a string other
than `success` and whose message is a string `m`, each of the ten
operations returns the empty payload of its shape together with an error
whose text is exactly `m`. -/
theorem C2_failure_returns_message (w : Env) (v : JSON) (status m : String)
    (hne : status ≠ "success") (henv : Envelope w v status (.str m)) :
    (Serves w RandomImagePath v → RandomImage w = .returned "" (some m)) ∧
    (∀ n, Serves w (MultipleRandomImagesPath n) v →
      MultipleRandomImages w n = .returned [] (some m)) ∧
    (∀ breed, Serves w (RandomImageByBreedPath breed) v →
      RandomImageByBreed w breed = .returned "" (some m)) ∧
    (∀ breed n, Serves w (MultipleRandomImagesByBreedPath breed n) v →
      MultipleRandomImagesByBreed w breed n = .returned [] (some m)) ∧
    (∀ breed, Serves w (ImagesByBreedPath breed) v →
      ImagesByBreed w breed = .returned [] (some m)) ∧
    (∀ breed sub, Serves w (RandomImageBySubBreedPath breed sub) v →
      RandomImageBySubBreed w breed sub = .returned "" (some m)) ∧
    (∀ breed sub n, Serves w (MultipleRandomImagesBySubBreedPath breed sub n) v →
      MultipleRandomImagesBySubBreed w breed sub n = .returned [] (some m)) ∧
    (∀ breed sub, Serves w (ImagesBySubBreedPath breed sub) v →
      ImagesBySubBreed w breed sub = .returned [] (some m)) ∧
    (Serves w BreedsListPath v → BreedsList w = .returned [] (some m)) ∧
    (∀ breed, Serves w (SubBreedsListPath breed) v →
      SubBreedsList w breed = .returned [] (some m)) := by
  refine ⟨fun hs => ?_, fun n hs => ?_, fun breed hs => ?_, fun breed n hs => ?_,
    fun breed hs => ?_, fun breed sub hs => ?_, fun breed sub n hs => ?_,
    fun breed sub hs => ?_, fun hs => ?_, fun breed hs => ?_⟩
  · exact (scalar_served w _ v status m hs henv).trans (if_neg hne)
  · exact list_served_failure w _ v status m hne hs henv
  · exact (scalar_served w _ v status m hs henv).trans (if_neg hne)
  · exact list_served_failure w _ v status m hne hs henv
  · exact list_served_failure w _ v status m hne hs henv
  · exact (scalar_served w _ v status m hs henv).trans (if_neg hne)
  · exact list_served_failure w _ v status m hne hs henv
  · exact list_served_failure w _ v status m hne hs henv
  · exact breedsList_failure w v status m hne hs henv
  · rw [subBreeds_served w breed v status _ hs henv, if_neg hne, fmtValue_str]

/-- C2 at the reply for an unknown breed: every operation returns the error
text `Breed not found (error code 404)` with its empty payload. -/
theorem C2_failure_returns_message_witness :
    RandomImage (fixedReply notFoundBody (.ok notFoundTree)) =
      .returned "" (some "Breed not found (error code 404)") ∧
    MultipleRandomImages (fixedReply notFoundBody (.ok notFoundTree)) 3 =
      .returned [] (some "Breed not found (error code 404)") ∧
    RandomImageByBreed (fixedReply notFoundBody (.ok notFoundTree)) "nope" =
      .returned "" (some "Breed not found (error code 404)") ∧
    MultipleRandomImagesByBreed (fixedReply notFoundBody (.ok notFoundTree)) "nope" 3 =
      .returned [] (some "Breed not found (error code 404)") ∧
    ImagesByBreed (fixedReply notFoundBody (.ok notFoundTree)) "nope" =
      .returned [] (some "Breed not found (error code 404)") ∧
    RandomImageBySubBreed (fixedReply notFoundBody (.ok notFoundTree)) "nope" "none" =
      .returned "" (some "Breed not found (error code 404)") ∧
    MultipleRandomImagesBySubBreed (fixedReply notFoundBody (.ok notFoundTree)) "nope" "none" 3 =
      .returned [] (some "Breed not found (error code 404)") ∧
    ImagesBySubBreed (fixedReply notFoundBody (.ok notFoundTree)) "nope" "none" =
      .returned [] (some "Breed not found (error code 404)") ∧
    BreedsList (fixedReply notFoundBody (.ok notFoundTree)) =
      .returned [] (some "Breed not found (error code 404)") ∧
    SubBreedsList (fixedReply notFoundBody (.ok notFoundTree)) "nope" =
      .returned [] (some "Breed not found (error code 404)") :=
  have h := C2_failure_returns_message (fixedReply notFoundBody (.ok notFoundTree)) notFoundTree
    "error" "Breed not found (error code 404)" (by decide) ⟨_, rfl, rfl, rfl⟩
  ⟨h.1 ⟨_, rfl, rfl⟩, h.2.1 3 ⟨_, rfl, rfl⟩, h.2.2.1 "nope" ⟨_, rfl, rfl⟩,
    h.2.2.2.1 "nope" 3 ⟨_, rfl, rfl⟩, h.2.2.2.2.1 "nope" ⟨_, rfl, rfl⟩,
    h.2.2.2.2.2.1 "nope" "none" ⟨_, rfl, rfl⟩, h.2.2.2.2.2.2.1 "nope" "none" 3 ⟨_, rfl, rfl⟩,
    h.2.2.2.2.2.2.2.1 "nope" "none" ⟨_, rfl, rfl⟩, h.2.2.2.2.2.2.2.2.1 ⟨_, rfl, rfl⟩,
    h.2.2.2.2.2.2.2.2.2 "nope" ⟨_, rfl, rfl⟩⟩

/-- C3: on a body that scans to an envelope with status `success` and an
array of strings `L`, `SubBreedsList` returns an error exactly when `L` is
empty; then the error text is `the breed does not have sub-breeds` and the
payload is the empty list; otherwise it returns `L` with no error.  It never
returns an empty list with a nil error. -/
theorem C3_subBreeds_empty_is_error (w : Env) (v : JSON) (breed : String) (L : List String)
    (hs : Serves w (SubBreedsListPath breed) v)
    (henv : Envelope w v "success" (.arr (L.map JSON.str))) :
    ((∃ payload e, SubBreedsList w breed = .returned payload (some e)) ↔ L = []) ∧
    (L = [] →
      SubBreedsList w breed = .returned [] (some "the breed does not have sub-breeds")) ∧
    (L ≠ [] → SubBreedsList w breed = .returned L none) ∧
    SubBreedsList w breed ≠ .returned [] none := by
  have h := subBreeds_served w breed v "success" _ hs henv
  rw [if_pos rfl] at h
  simp only [extractItems, fmtItems_strings] at h
  cases L with
  | nil =>
    rw [h]
    simp
  | cons x xs =>
    rw [h]
    simp

/-- C3 at sample replies: an empty array is the fixed error, two sub-breeds are returned. -/
theorem C3_subBreeds_empty_is_error_witness :
    SubBreedsList (fixedReply emptyListBody (.ok emptyListTree)) "pug" =
      .returned [] (some "the breed does not have sub-breeds") ∧
    SubBreedsList (fixedReply pairBody (.ok pairTree)) "hound" =
      .returned ["afghan", "basset"] none :=
  ⟨(C3_subBreeds_empty_is_error (fixedReply emptyListBody (.ok emptyListTree)) emptyListTree
      "pug" [] ⟨_, rfl, rfl⟩ ⟨_, rfl, rfl, rfl⟩).2.1 rfl,
   (C3_subBreeds_empty_is_error (fixedReply pairBody (.ok pairTree)) pairTree
      "hound" ["afghan", "basset"] ⟨_, rfl, rfl⟩ ⟨_, rfl, rfl, rfl⟩).2.2.1 (by simp)⟩

/-- C4: on a body that scans to an envelope with status `success` whose
message is an object binding breed names to arrays of strings, `BreedsList`
returns no error and a map with exactly the keys of the object, each bound
to the list of strings of its array, in the same order: the map the members
build, whose binding at every key is the object's (the last one, should a
key be repeated), and whose bindings are, when the keys of the object are
pairwise distinct, exactly the members of the object. -/
theorem C4_breedsList_returns_map (w : Env) (v : JSON) (breeds : List (String × List String))
    (hs : Serves w BreedsListPath v)
    (henv : Envelope w v "success"
      (.obj (breeds.map (fun kv => (kv.1, JSON.arr (kv.2.map JSON.str)))))) :
    BreedsList w = .returned (toMap breeds) none ∧
    (∀ k, mapLookup k (toMap breeds) = lastBinding k breeds) ∧
    ((breeds.map Prod.fst).Nodup → (toMap breeds).Perm breeds) :=
  ⟨breedsList_success w v breeds hs henv, fun k => mapLookup_toMap k breeds,
    toMap_perm breeds⟩

/-- C4 at the sample reply: `hound` is bound to `afghan`, `english`. -/
theorem C4_breedsList_returns_map_witness :
    BreedsList (fixedReply houndBody (.ok houndTree)) =
      .returned [("hound", ["afghan", "english"])] none :=
  (C4_breedsList_returns_map (fixedReply houndBody (.ok houndTree)) houndTree
    [("hound", ["afghan", "english"])] ⟨_, rfl, rfl⟩ ⟨_, rfl, rfl, rfl⟩).1

/-- C5: every operation that takes a breed or sub-breed name builds the same
path from the names as from the names with the white space at their ends
removed.  Only the ends are trimmed: a name is its trimmed form between a
run of white space before and a run after, and the trimmed form neither
starts nor ends with white space.  `RandomImageByBreed("  hound ")` and
`RandomImageByBreed("hound")` both build `breed/hound/images/random`. -/
theorem C5_paths_trim_names (breed sub : String) (n : Int) :
    RandomImageByBreedPath breed = RandomImageByBreedPath (TrimSpace breed) ∧
    MultipleRandomImagesByBreedPath breed n =
      MultipleRandomImagesByBreedPath (TrimSpace breed) n ∧
    ImagesByBreedPath breed = ImagesByBreedPath (TrimSpace breed) ∧
    RandomImageBySubBreedPath breed sub =
      RandomImageBySubBreedPath (TrimSpace breed) (TrimSpace sub) ∧
    MultipleRandomImagesBySubBreedPath breed sub n =
      MultipleRandomImagesBySubBreedPath (TrimSpace breed) (TrimSpace sub) n ∧
    ImagesBySubBreedPath breed sub = ImagesBySubBreedPath (TrimSpace breed) (TrimSpace sub) ∧
    SubBreedsListPath breed = SubBreedsListPath (TrimSpace breed) ∧
    (∃ before after, breed.data = before ++ (TrimSpace breed).data ++ after ∧
      (∀ c ∈ before, isSpace c = true) ∧ (∀ c ∈ after, isSpace c = true)) ∧
    Trimmed (TrimSpace breed).data ∧
    RandomImageByBreedPath "  hound " = "breed/hound/images/random" ∧
    RandomImageByBreedPath "hound" = "breed/hound/images/random" ∧
    (∀ w : Env,
      RandomImageByBreed w breed = RandomImageByBreed w (TrimSpace breed) ∧
      MultipleRandomImagesByBreed w breed n =
        MultipleRandomImagesByBreed w (TrimSpace breed) n ∧
      ImagesByBreed w breed = ImagesByBreed w (TrimSpace breed) ∧
      RandomImageBySubBreed w breed sub =
        RandomImageBySubBreed w (TrimSpace breed) (TrimSpace sub) ∧
      MultipleRandomImagesBySubBreed w breed sub n =
        MultipleRandomImagesBySubBreed w (TrimSpace breed) (TrimSpace sub) n ∧
      ImagesBySubBreed w breed sub = ImagesBySubBreed w (TrimSpace breed) (TrimSpace sub) ∧
      SubBreedsList w breed = SubBreedsList w (TrimSpace breed)) := by
  refine ⟨?_, ?_, ?_, ?_, ?_, ?_, ?_, ?_, trimmed_trimChars _, by decide, by decide,
    fun w => ⟨?_, ?_, ?_, ?_, ?_, ?_, ?_⟩⟩
  · simp only [RandomImageByBreedPath, TrimSpace_idem]
  · simp only [MultipleRandomImagesByBreedPath, TrimSpace_idem]
  · simp only [ImagesByBreedPath, TrimSpace_idem]
  · simp only [RandomImageBySubBreedPath, TrimSpace_idem]
  · simp only [MultipleRandomImagesBySubBreedPath, TrimSpace_idem]
  · simp only [ImagesBySubBreedPath, TrimSpace_idem]
  · simp only [SubBreedsListPath, TrimSpace_idem]
  · refine ⟨breed.data.takeWhile isSpace, (breed.data.dropWhile isSpace).rtakeWhile isSpace,
      trimChars_decomp breed.data, ?_, ?_⟩
    · intro c hc
      exact (List.mem_takeWhile_imp hc)
    · intro c hc
      exact (List.mem_rtakeWhile_imp hc)
  · simp only [RandomImageByBreed, RandomImageByBreedPath, TrimSpace_idem]
  · simp only [MultipleRandomImagesByBreed, MultipleRandomImagesByBreedPath, TrimSpace_idem]
  · simp only [ImagesByBreed, ImagesByBreedPath, TrimSpace_idem]
  · simp only [RandomImageBySubBreed, RandomImageBySubBreedPath, TrimSpace_idem]
  · simp only [MultipleRandomImagesBySubBreed, MultipleRandomImagesBySubBreedPath,
      TrimSpace_idem]
  · simp only [ImagesBySubBreed, ImagesBySubBreedPath, TrimSpace_idem]
  · simp only [SubBreedsList, SubBreedsListPath, TrimSpace_idem]

/-- C6: for every count in the range of the parameter (`int8` for
`MultipleRandomImages`, `int64` for the two others), negative, zero or
above 50 alike, the path is the template with the base-10 text of the count
in the place of the count, and that text reads back as the same count: the
count is not clamped or changed. -/
theorem C6_count_verbatim (breed sub : String) (count : Int) :
    (-128 ≤ count ∧ count ≤ 127 →
      MultipleRandomImagesPath count = "breeds/image/random/" ++ formatInt count) ∧
    (-9223372036854775808 ≤ count ∧ count ≤ 9223372036854775807 →
      MultipleRandomImagesByBreedPath breed count =
        "breed/" ++ TrimSpace breed ++ "/images/random/" ++ formatInt count ∧
      MultipleRandomImagesBySubBreedPath breed sub count =
        "breed/" ++ TrimSpace breed ++ "/" ++ TrimSpace sub ++ "/images/random/" ++
          formatInt count) ∧
    readInt (formatInt count) = count :=
  ⟨fun _ => rfl, fun _ => ⟨rfl, rfl⟩, readInt_formatInt count⟩

/-- C6 at sample counts: zero, the `int8` bounds and a count above 50. -/
theorem C6_count_verbatim_witness :
    MultipleRandomImagesPath 0 = "breeds/image/random/0" ∧
    MultipleRandomImagesPath (-128) = "breeds/image/random/-128" ∧
    MultipleRandomImagesPath 127 = "breeds/image/random/127" ∧
    MultipleRandomImagesByBreedPath "hound" 51 = "breed/hound/images/random/51" ∧
    MultipleRandomImagesBySubBreedPath "hound" "afghan" (-9223372036854775808) =
      "breed/hound/afghan/images/random/-9223372036854775808" :=
  ⟨(C6_count_verbatim "" "" 0).1 (by decide),
   (C6_count_verbatim "" "" (-128)).1 (by decide),
   (C6_count_verbatim "" "" 127).1 (by decide),
   ((C6_count_verbatim "hound" "" 51).2.1 (by decide)).1,
   ((C6_count_verbatim "hound" "afghan" (-9223372036854775808)).2.1 (by decide)).2⟩

/-- C9 as stated fails: `ImagesByBreed("hound/images/random")` builds
`breed/hound/images/random/images`, not the path of `RandomImageByBreed("hound")`. -/
theorem C9_counterexample :
    ImagesByBreedPath (TrimSpace "hound" ++ "/images/random") =
      "breed/hound/images/random/images" ∧
    RandomImageByBreedPath "hound" = "breed/hound/images/random" ∧
    ImagesByBreedPath (TrimSpace "hound" ++ "/images/random") ≠ RandomImageByBreedPath "hound" := by
  decide

/-- C9 amended: names are interpolated with no escaping or validation beyond
trimming, so separators in a name change the endpoint addressed: for all
`b` and `s`, `RandomImageByBreed(trim(b) + "/" + trim(s))` builds the path
of `RandomImageBySubBreed(b, s)`, which is the template with the trimmed
names substituted verbatim, and `ImagesByBreed(trim(b) + "/images/random")`
builds the path of `RandomImageByBreed(b)` followed by `/images`. -/
theorem C9_names_not_escaped (b s : String) :
    RandomImageBySubBreedPath b s =
      "breed/" ++ TrimSpace b ++ "/" ++ TrimSpace s ++ "/images/random" ∧
    RandomImageByBreedPath (TrimSpace b ++ "/" ++ TrimSpace s) =
      RandomImageBySubBreedPath b s ∧
    ImagesByBreedPath (TrimSpace b ++ "/images/random") =
      RandomImageByBreedPath b ++ "/images" := by
  refine ⟨rfl, ?_, ?_⟩
  · unfold RandomImageByBreedPath RandomImageBySubBreedPath
    rw [TrimSpace_join_sub]
    simp only [String.append_assoc]
  · unfold ImagesByBreedPath RandomImageByBreedPath
    rw [TrimSpace_join_random]
    simp only [String.append_assoc]

/-! ## Lemmas: bodies that do not decode -/

theorem scalar_malformed (w : Env) (path e : String) (hs : ServesMalformed w path e) :
    (match getRequest w path with
      | .error err => Result.returned "" (some err)
      | .ok res => scalarResult w res) =
    .returned "" (some ("Something went wrong while reading json: " ++ e)) := by
  obtain ⟨body, hget, hscan⟩ := hs
  rw [hget]
  simp only [scalarResult, unmarshalResponse]
  rw [hscan]
  rfl

theorem list_malformed (w : Env) (path e : String) (hs : ServesMalformed w path e) :
    (match getRequest w path with
      | .error err => Result.returned [] (some err)
      | .ok res => listResult w res) =
    .returned [] (some ("Something went wrong while reading json: " ++ e)) := by
  obtain ⟨body, hget, hscan⟩ := hs
  rw [hget]
  simp only [listResult, unmarshalMap]
  rw [hscan]
  rfl

theorem unmarshalResponse_top (w : Env) (body : String) (v : JSON) (hscan : w.scan body = .ok v)
    (hv : notMapLike v = true) :
    unmarshalResponse w body = .error (typeErrorText (valueName v) "dogapi.response") := by
  unfold unmarshalResponse
  rw [hscan]
  cases v <;> first | rfl | simp [notMapLike] at hv

theorem unmarshalMap_top (w : Env) (body : String) (v : JSON) (hscan : w.scan body = .ok v)
    (hv : notMapLike v = true) :
    unmarshalMap w body = .error (typeErrorText (valueName v) "map[string]interface {}") := by
  unfold unmarshalMap
  rw [hscan]
  cases v <;> first | rfl | simp [notMapLike] at hv

theorem scalar_of_decode_error (w : Env) (path body e : String)
    (hget : getRequest w path = .ok body) (herr : unmarshalResponse w body = .error e) :
    IsDecodeError ""
      (match getRequest w path with
        | .error err => Result.returned "" (some err)
        | .ok res => scalarResult w res) := by
  refine ⟨e, ?_⟩
  rw [hget]
  simp only [scalarResult]
  rw [herr]

theorem list_of_decode_error (w : Env) (path body e : String)
    (hget : getRequest w path = .ok body) (herr : unmarshalMap w body = .error e) :
    IsDecodeError []
      (match getRequest w path with
        | .error err => Result.returned [] (some err)
        | .ok res => listResult w res) := by
  refine ⟨e, ?_⟩
  rw [hget]
  simp only [listResult]
  rw [herr]

theorem scalar_top (w : Env) (path : String) (v : JSON) (hs : Serves w path v)
    (hv : notMapLike v = true) :
    IsDecodeError ""
      (match getRequest w path with
        | .error err => Result.returned "" (some err)
        | .ok res => scalarResult w res) := by
  obtain ⟨body, hget, hscan⟩ := hs
  exact scalar_of_decode_error w path body _ hget (unmarshalResponse_top w body v hscan hv)

theorem list_top (w : Env) (path : String) (v : JSON) (hs : Serves w path v)
    (hv : notMapLike v = true) :
    IsDecodeError []
      (match getRequest w path with
        | .error err => Result.returned [] (some err)
        | .ok res => listResult w res) := by
  obtain ⟨body, hget, hscan⟩ := hs
  exact list_of_decode_error w path body _ hget (unmarshalMap_top w body v hscan hv)

theorem unmarshalResponse_field_error (w : Env) (body : String)
    (members : List (String × JSON)) (hscan : w.scan body = .ok (.obj members))
    (hbad : ∃ kv ∈ members, (fieldOf w kv.1).isSome = true ∧ notStringLike kv.2 = true) :
    ∃ e, unmarshalResponse w body = .error e := by
  obtain ⟨kv, hkv, hf, hv⟩ := hbad
  have herr := objectSteps_error w "response"
    (storeString (fieldErrorText "response" "message" "string")) members (("", ""), none)
    ⟨kv, hkv, by
      cases hfo : fieldOf w kv.1 with
      | none => rw [hfo] at hf; simp at hf
      | some f =>
        cases f with
        | status => exact Or.inl ⟨rfl, hv⟩
        | message => exact Or.inr ⟨rfl, fun cur => ⟨_, storeString_bad _ cur kv.2 hv⟩⟩⟩
  obtain ⟨e, he⟩ := herr
  refine ⟨e, ?_⟩
  unfold unmarshalResponse
  rw [hscan]
  simp only []
  generalize members.foldl _ _ = r at he
  obtain ⟨data, saved⟩ := r
  simp only at he
  subst he
  rfl

theorem scalar_field_error (w : Env) (path : String) (members : List (String × JSON))
    (hs : Serves w path (.obj members))
    (hbad : ∃ kv ∈ members, (fieldOf w kv.1).isSome = true ∧ notStringLike kv.2 = true) :
    IsDecodeError ""
      (match getRequest w path with
        | .error err => Result.returned "" (some err)
        | .ok res => scalarResult w res) := by
  obtain ⟨body, hget, hscan⟩ := hs
  obtain ⟨e, he⟩ := unmarshalResponse_field_error w body members hscan hbad
  exact scalar_of_decode_error w path body e hget he

theorem storeBreedMap_bad (cur : List (String × List String)) (v : JSON)
    (hv : notMapLike v = true) : ∃ e, (storeBreedMap cur v).2 = some e := by
  cases v <;> first | exact ⟨_, rfl⟩ | simp [notMapLike] at hv

theorem breedsList_field_error (w : Env) (members : List (String × JSON))
    (hs : Serves w BreedsListPath (.obj members))
    (hstatus : mapIndex members "status" = .str "success")
    (hbad : ∃ kv ∈ members, fieldOf w kv.1 = some .message ∧ notMapLike kv.2 = true) :
    IsDecodeError [] (BreedsList w) := by
  obtain ⟨body, hget, hscan⟩ := hs
  obtain ⟨kv, hkv, hf, hv⟩ := hbad
  obtain ⟨e, he⟩ := objectSteps_error w "breedsResponse" storeBreedMap members (("", []), none)
    ⟨kv, hkv, Or.inr ⟨hf, fun cur => storeBreedMap_bad cur kv.2 hv⟩⟩
  refine ⟨e, ?_⟩
  have hdec : unmarshalBreedsResponse w body = .error e := by
    unfold unmarshalBreedsResponse
    rw [hscan]
    simp only []
    generalize members.foldl _ _ = r at he
    obtain ⟨data, saved⟩ := r
    simp only at he
    subst he
    rfl
  have hmap : unmarshalMap w body = .ok members := by
    unfold unmarshalMap
    rw [hscan]
  unfold BreedsList
  rw [hget]
  simp only []
  rw [hmap]
  simp only []
  rw [hstatus, isString_str, hdec]
  simp

theorem foldl_null_string (g : String → String) (ms : List (String × JSON)) (cur : String)
    (h : ∀ kv ∈ ms, kv.2 = JSON.null) :
    ms.foldl (fun cur kv => (storeString g cur kv.2).1) cur = cur := by
  induction ms generalizing cur with
  | nil => rfl
  | cons kv rest ih =>
    rw [List.foldl_cons, h kv (List.mem_cons_self _ _)]
    exact ih _ (fun x hx => h x (List.mem_cons_of_mem _ hx))

theorem foldl_null_map (ms : List (String × JSON)) (h : ∀ kv ∈ ms, kv.2 = JSON.null) :
    ms.foldl (fun cur kv => (storeBreedMap cur kv.2).1) [] = [] := by
  induction ms with
  | nil => rfl
  | cons kv rest ih =>
    rw [List.foldl_cons, h kv (List.mem_cons_self _ _)]
    exact ih (fun x hx => h x (List.mem_cons_of_mem _ hx))

theorem scalar_null_message (w : Env) (path : String) (members : List (String × JSON))
    (hs : Serves w path (.obj members))
    (hst : membersOf w .status members = [("status", .str "success")])
    (hmsg : ∀ kv ∈ membersOf w .message members, kv.2 = JSON.null) :
    (match getRequest w path with
      | .error err => Result.returned "" (some err)
      | .ok res => scalarResult w res) = .returned "" none := by
  obtain ⟨body, hget, hscan⟩ := hs
  rw [hget]
  simp only [scalarResult, unmarshalResponse]
  rw [hscan]
  simp only []
  rw [objectSteps_fields w "response" _ members _
    (by rw [hst]; intro kv hkv; rw [List.mem_singleton.mp hkv]; rfl)
    (by intro kv hkv cur; rw [hmsg kv hkv]; rfl), hst, foldl_null_string _ _ _ hmsg]
  rfl

theorem breedsList_null_message (w : Env) (members : List (String × JSON))
    (hs : Serves w BreedsListPath (.obj members))
    (hst : membersOf w .status members = [("status", .str "success")])
    (hmsg : ∀ kv ∈ membersOf w .message members, kv.2 = JSON.null) :
    BreedsList w = .returned [] none := by
  obtain ⟨body, hget, hscan⟩ := hs
  have hmap : unmarshalMap w body = .ok members := by
    unfold unmarshalMap
    rw [hscan]
  have hdec : unmarshalBreedsResponse w body = .ok ⟨"success", []⟩ := by
    unfold unmarshalBreedsResponse
    rw [hscan]
    simp only []
    rw [objectSteps_fields w "breedsResponse" _ members _
      (by rw [hst]; intro kv hkv; rw [List.mem_singleton.mp hkv]; rfl)
      (by intro kv hkv cur; rw [hmsg kv hkv]; rfl), hst, foldl_null_map _ hmsg]
    rfl
  unfold BreedsList
  rw [hget]
  simp only []
  rw [hmap]
  simp only []
  rw [mapIndex_of_membersOf w members .status "status" _ (fieldOf_status w) hst, isString_str,
    hdec]
  simp

/-- C7: on a body that is not well-formed JSON, each of the ten operations
returns its empty payload with an error whose text is
`Something went wrong while reading json: ` followed by the text of the
syntax error; none of them panics. -/
theorem C7_malformed_is_decode_error (w : Env) (e : String) :
    (ServesMalformed w RandomImagePath e →
      RandomImage w = .returned "" (some ("Something went wrong while reading json: " ++ e))) ∧
    (∀ n, ServesMalformed w (MultipleRandomImagesPath n) e →
      MultipleRandomImages w n =
        .returned [] (some ("Something went wrong while reading json: " ++ e))) ∧
    (∀ breed, ServesMalformed w (RandomImageByBreedPath breed) e →
      RandomImageByBreed w breed =
        .returned "" (some ("Something went wrong while reading json: " ++ e))) ∧
    (∀ breed n, ServesMalformed w (MultipleRandomImagesByBreedPath breed n) e →
      MultipleRandomImagesByBreed w breed n =
        .returned [] (some ("Something went wrong while reading json: " ++ e))) ∧
    (∀ breed, ServesMalformed w (ImagesByBreedPath breed) e →
      ImagesByBreed w breed =
        .returned [] (some ("Something went wrong while reading json: " ++ e))) ∧
    (∀ breed sub, ServesMalformed w (RandomImageBySubBreedPath breed sub) e →
      RandomImageBySubBreed w breed sub =
        .returned "" (some ("Something went wrong while reading json: " ++ e))) ∧
    (∀ breed sub n, ServesMalformed w (MultipleRandomImagesBySubBreedPath breed sub n) e →
      MultipleRandomImagesBySubBreed w breed sub n =
        .returned [] (some ("Something went wrong while reading json: " ++ e))) ∧
    (∀ breed sub, ServesMalformed w (ImagesBySubBreedPath breed sub) e →
      ImagesBySubBreed w breed sub =
        .returned [] (some ("Something went wrong while reading json: " ++ e))) ∧
    (ServesMalformed w BreedsListPath e →
      BreedsList w = .returned [] (some ("Something went wrong while reading json: " ++ e))) ∧
    (∀ breed, ServesMalformed w (SubBreedsListPath breed) e →
      SubBreedsList w breed =
        .returned [] (some ("Something went wrong while reading json: " ++ e))) := by
  refine ⟨fun hs => ?_, fun n hs => ?_, fun breed hs => ?_, fun breed n hs => ?_,
    fun breed hs => ?_, fun breed sub hs => ?_, fun breed sub n hs => ?_,
    fun breed sub hs => ?_, fun hs => ?_, fun breed hs => ?_⟩
  · exact scalar_malformed w _ e hs
  · exact list_malformed w _ e hs
  · exact scalar_malformed w _ e hs
  · exact list_malformed w _ e hs
  · exact list_malformed w _ e hs
  · exact scalar_malformed w _ e hs
  · exact list_malformed w _ e hs
  · exact list_malformed w _ e hs
  · obtain ⟨body, hget, hscan⟩ := hs
    unfold BreedsList
    rw [hget]
    simp only [unmarshalMap]
    rw [hscan]
    rfl
  · obtain ⟨body, hget, hscan⟩ := hs
    unfold SubBreedsList
    rw [hget]
    simp only [unmarshalMap]
    rw [hscan]
    rfl

/-- C7 at a reply cut off in the middle of a string. -/
theorem C7_malformed_is_decode_error_witness :
    RandomImage (fixedReply truncatedBody (.error "unexpected end of JSON input")) =
      .returned ""
        (some "Something went wrong while reading json: unexpected end of JSON input") ∧
    MultipleRandomImages (fixedReply truncatedBody (.error "unexpected end of JSON input")) 3 =
      .returned []
        (some "Something went wrong while reading json: unexpected end of JSON input") ∧
    BreedsList (fixedReply truncatedBody (.error "unexpected end of JSON input")) =
      .returned []
        (some "Something went wrong while reading json: unexpected end of JSON input") :=
  have h := C7_malformed_is_decode_error
    (fixedReply truncatedBody (.error "unexpected end of JSON input"))
    "unexpected end of JSON input"
  ⟨h.1 ⟨_, rfl, rfl⟩, h.2.1 3 ⟨_, rfl, rfl⟩, h.2.2.2.2.2.2.2.2.1 ⟨_, rfl, rfl⟩⟩

/-- C8 as stated fails: on the well-formed body with status `success` and no
message, `RandomImage` returns the empty string with a nil error, which is
not a `DecodeError`, and `MultipleRandomImages` panics. -/
theorem C8_counterexample :
    RandomImage (fixedReply bareBody (.ok bareTree)) = .returned "" none ∧
    ¬ IsDecodeError "" (RandomImage (fixedReply bareBody (.ok bareTree))) ∧
    MultipleRandomImages (fixedReply bareBody (.ok bareTree)) 3 =
      .panicked "reflect: call of reflect.Value.Len on zero Value" := by
  refine ⟨rfl, ?_, rfl⟩
  rintro ⟨e, he⟩
  have h : RandomImage (fixedReply bareBody (.ok bareTree)) = .returned "" none := rfl
  rw [h] at he
  cases he

/-- C8 amended: a well-formed body whose top-level value is an array, a
string, a number or a boolean is a `DecodeError` for each of the ten
operations.  For the three single-image operations so is an object in which
a member answering to `status` or `message` holds a number, a boolean, an
array or an object; for `BreedsList` so is an object with status `success`
in which a member answering to `message` holds a number, a boolean, a string
or an array.  An object with status `success` whose message is absent or
`null` is no error for the single-image operations and `BreedsList`: they
return the empty payload with a nil error. -/
theorem C8_shape_mismatch (w : Env) (v : JSON) :
    (notMapLike v = true →
      (Serves w RandomImagePath v → IsDecodeError "" (RandomImage w)) ∧
      (∀ n, Serves w (MultipleRandomImagesPath n) v →
        IsDecodeError [] (MultipleRandomImages w n)) ∧
      (∀ breed, Serves w (RandomImageByBreedPath breed) v →
        IsDecodeError "" (RandomImageByBreed w breed)) ∧
      (∀ breed n, Serves w (MultipleRandomImagesByBreedPath breed n) v →
        IsDecodeError [] (MultipleRandomImagesByBreed w breed n)) ∧
      (∀ breed, Serves w (ImagesByBreedPath breed) v →
        IsDecodeError [] (ImagesByBreed w breed)) ∧
      (∀ breed sub, Serves w (RandomImageBySubBreedPath breed sub) v →
        IsDecodeError "" (RandomImageBySubBreed w breed sub)) ∧
      (∀ breed sub n, Serves w (MultipleRandomImagesBySubBreedPath breed sub n) v →
        IsDecodeError [] (MultipleRandomImagesBySubBreed w breed sub n)) ∧
      (∀ breed sub, Serves w (ImagesBySubBreedPath breed sub) v →
        IsDecodeError [] (ImagesBySubBreed w breed sub)) ∧
      (Serves w BreedsListPath v → IsDecodeError [] (BreedsList w)) ∧
      (∀ breed, Serves w (SubBreedsListPath breed) v →
        IsDecodeError [] (SubBreedsList w breed))) ∧
    (∀ members, v = .obj members →
      (∃ kv ∈ members, (fieldOf w kv.1).isSome = true ∧ notStringLike kv.2 = true) →
      (Serves w RandomImagePath v → IsDecodeError "" (RandomImage w)) ∧
      (∀ breed, Serves w (RandomImageByBreedPath breed) v →
        IsDecodeError "" (RandomImageByBreed w breed)) ∧
      (∀ breed sub, Serves w (RandomImageBySubBreedPath breed sub) v →
        IsDecodeError "" (RandomImageBySubBreed w breed sub))) ∧
    (∀ members, v = .obj members → mapIndex members "status" = .str "success" →
      (∃ kv ∈ members, fieldOf w kv.1 = some .message ∧ notMapLike kv.2 = true) →
      Serves w BreedsListPath v → IsDecodeError [] (BreedsList w)) ∧
    (∀ members, v = .obj members →
      membersOf w .status members = [("status", .str "success")] →
      (∀ kv ∈ membersOf w .message members, kv.2 = JSON.null) →
      (Serves w RandomImagePath v → RandomImage w = .returned "" none) ∧
      (∀ breed, Serves w (RandomImageByBreedPath breed) v →
        RandomImageByBreed w breed = .returned "" none) ∧
      (∀ breed sub, Serves w (RandomImageBySubBreedPath breed sub) v →
        RandomImageBySubBreed w breed sub = .returned "" none) ∧
      (Serves w BreedsListPath v → BreedsList w = .returned [] none)) := by
  refine ⟨fun hv => ⟨fun hs => ?_, fun n hs => ?_, fun breed hs => ?_, fun breed n hs => ?_,
      fun breed hs => ?_, fun breed sub hs => ?_, fun breed sub n hs => ?_,
      fun breed sub hs => ?_, fun hs => ?_, fun breed hs => ?_⟩,
    fun members hm hbad => ⟨fun hs => ?_, fun breed hs => ?_, fun breed sub hs => ?_⟩,
    fun members hm hst hbad hs => ?_,
    fun members hm hst hmsg => ⟨fun hs => ?_, fun breed hs => ?_, fun breed sub hs => ?_,
      fun hs => ?_⟩⟩
  · exact scalar_top w _ v hs hv
  · exact list_top w _ v hs hv
  · exact scalar_top w _ v hs hv
  · exact list_top w _ v hs hv
  · exact list_top w _ v hs hv
  · exact scalar_top w _ v hs hv
  · exact list_top w _ v hs hv
  · exact list_top w _ v hs hv
  · obtain ⟨body, hget, hscan⟩ := hs
    refine ⟨typeErrorText (valueName v) "map[string]interface {}", ?_⟩
    unfold BreedsList
    rw [hget]
    simp only []
    rw [unmarshalMap_top w body v hscan hv]
  · obtain ⟨body, hget, hscan⟩ := hs
    refine ⟨typeErrorText (valueName v) "map[string]interface {}", ?_⟩
    unfold SubBreedsList
    rw [hget]
    simp only []
    rw [unmarshalMap_top w body v hscan hv]
  · subst hm; exact scalar_field_error w _ members hs hbad
  · subst hm; exact scalar_field_error w _ members hs hbad
  · subst hm; exact scalar_field_error w _ members hs hbad
  · subst hm; exact breedsList_field_error w members hs hst hbad
  · subst hm; exact scalar_null_message w _ members hs hst hmsg
  · subst hm; exact scalar_null_message w _ members hs hst hmsg
  · subst hm; exact scalar_null_message w _ members hs hst hmsg
  · subst hm; exact breedsList_null_message w members hs hst hmsg

/-- C8 amended, at sample replies: a JSON array at the top, a number as the
message, and a missing message. -/
theorem C8_shape_mismatch_witness :
    IsDecodeError [] (ImagesByBreed (fixedReply arrayBody (.ok arrayTree)) "hound") ∧
    IsDecodeError "" (RandomImage (fixedReply numberBody (.ok numberTree))) ∧
    IsDecodeError [] (BreedsList (fixedReply numberBody (.ok numberTree))) ∧
    BreedsList (fixedReply bareBody (.ok bareTree)) = .returned [] none :=
  ⟨((C8_shape_mismatch (fixedReply arrayBody (.ok arrayTree)) arrayTree).1 rfl).2.2.2.2.1
      "hound" ⟨_, rfl, rfl⟩,
   ((C8_shape_mismatch (fixedReply numberBody (.ok numberTree)) numberTree).2.1 _ rfl
      ⟨("message", .num "404"), by simp, rfl, rfl⟩).1 ⟨_, rfl, rfl⟩,
   (C8_shape_mismatch (fixedReply numberBody (.ok numberTree)) numberTree).2.2.1 _ rfl rfl
      ⟨("message", .num "404"), by simp, rfl, rfl⟩ ⟨_, rfl, rfl⟩,
   ((C8_shape_mismatch (fixedReply bareBody (.ok bareTree)) bareTree).2.2.2 _ rfl rfl
      (by intro kv hkv; exact absurd hkv (List.not_mem_nil kv))).2.2.2 ⟨_, rfl, rfl⟩⟩

/-- C10: on a body that scans to an envelope with status `success` whose
message is an array of arbitrary JSON values, each of the five image-list
operations returns no error and the list of the `%s` texts of the items:
it has the length of the array, a string item is itself at its position, and
any other item is replaced by its `%s` text; nothing is dropped. -/
theorem C10_items_formatted (w : Env) (v : JSON) (items : List JSON)
    (henv : Envelope w v "success" (.arr items)) :
    ((∀ n, Serves w (MultipleRandomImagesPath n) v →
        MultipleRandomImages w n = .returned (items.map (fmtValue 's')) none) ∧
      (∀ breed n, Serves w (MultipleRandomImagesByBreedPath breed n) v →
        MultipleRandomImagesByBreed w breed n = .returned (items.map (fmtValue 's')) none) ∧
      (∀ breed, Serves w (ImagesByBreedPath breed) v →
        ImagesByBreed w breed = .returned (items.map (fmtValue 's')) none) ∧
      (∀ breed sub n, Serves w (MultipleRandomImagesBySubBreedPath breed sub n) v →
        MultipleRandomImagesBySubBreed w breed sub n =
          .returned (items.map (fmtValue 's')) none) ∧
      (∀ breed sub, Serves w (ImagesBySubBreedPath breed sub) v →
        ImagesBySubBreed w breed sub = .returned (items.map (fmtValue 's')) none)) ∧
    (items.map (fmtValue 's')).length = items.length ∧
    (∀ (i : Nat) (s : String), items[i]? = some (JSON.str s) →
      (items.map (fmtValue 's'))[i]? = some s) ∧
    (∀ (i : Nat) (x : JSON), items[i]? = some x →
      (items.map (fmtValue 's'))[i]? = some (fmtValue 's' x)) := by
  refine ⟨⟨fun n hs => ?_, fun breed n hs => ?_, fun breed hs => ?_,
    fun breed sub n hs => ?_, fun breed sub hs => ?_⟩, List.length_map _ _, ?_, ?_⟩
  · exact list_served_items w _ v items hs henv
  · exact list_served_items w _ v items hs henv
  · exact list_served_items w _ v items hs henv
  · exact list_served_items w _ v items hs henv
  · exact list_served_items w _ v items hs henv
  · intro i s h
    rw [List.getElem?_map, h]
    simp [fmtValue_str]
  · intro i x h
    rw [List.getElem?_map, h]
    rfl

/-- C10 at a sample reply holding a string, a number, a boolean, a null and a nested array. -/
theorem C10_items_formatted_witness :
    ImagesByBreed (fixedReply mixedBody (.ok mixedTree)) "hound" =
      .returned ["a.jpg", "%!s(float64=7)", "%!s(bool=true)", "<nil>", "[b %!s(float64=1.5)]"]
        none :=
  (C10_items_formatted (fixedReply mixedBody (.ok mixedTree)) mixedTree
    [.str "a.jpg", .num "7", .bool true, .null, .arr [.str "b", .num "1.5"]]
    ⟨_, rfl, rfl, rfl⟩).1.2.2.1 "hound" ⟨_, rfl, rfl⟩

end Dogapi
